import Mathlib

/-!
Verification of the order lifecycle and split-bill settlement engine of the
restaurant management system.

The embedding follows the route handlers in src/unnamed/part_000 (the Express
routes file) and the schema in src/shared/schema.ts.  Monetary values (decimal
columns and JavaScript numbers) are modelled as exact rationals; enum-typed
columns are modelled as strings constrained to the pg enum value lists of the
schema.  The storage layer (storage.ts) is not part of src/, so its CRUD
operations are modelled from the spec (each such definition is marked in its
doc comment); the business logic that decides the claims lives in the route
handlers, which are embedded directly from the source.
-/

namespace Restaurant

/-- Value list of the pg enum table_status in shared/schema.ts. -/
def tableStatusEnum : List String := ["free", "occupied", "reserved"]

/-- Value list of the pg enum order_status in shared/schema.ts. -/
def orderStatusEnum : List String := ["pending", "confirmed", "completed", "cancelled"]

/-- Value list of the pg enum order_item_status in shared/schema.ts. -/
def orderItemStatusEnum : List String :=
  ["queued", "preparing", "almost_ready", "ready", "delivered", "cancelled"]

/-- Value list of the pg enum payment_method in shared/schema.ts. -/
def paymentMethodEnum : List String := ["cash", "card"]

/-- Row of the tables relation (fields used by the engine). -/
structure Table where
  id : Nat
  number : Nat
  status : String
deriving Repr, DecidableEq

/-- Row of the menu_items relation (fields used by the engine); price is a
scale-2 decimal column modelled as a rational. -/
structure MenuItem where
  id : Nat
  name : String
  price : ℚ
  available : Bool
deriving Repr, DecidableEq

/-- Row of the orders relation; total is a derived scale-2 decimal column. -/
structure Order where
  id : Nat
  tableId : Nat
  status : String
  total : ℚ
deriving Repr, DecidableEq

/-- Row of the order_items relation; price is the MenuItem price snapshot
taken at creation time. -/
structure OrderItem where
  id : Nat
  orderId : Nat
  menuItemId : Nat
  quantity : Nat
  notes : Option String
  status : String
  price : ℚ
deriving Repr, DecidableEq

/-- Row of the payments relation; orderId carries a unique constraint. -/
structure Payment where
  id : Nat
  orderId : Nat
  tableId : Nat
  amount : ℚ
  method : String
deriving Repr, DecidableEq

/-- Row of the bill_shares relation. -/
structure BillShare where
  id : Nat
  paymentId : Nat
  customerName : String
  amount : ℚ
  paid : Bool
deriving Repr, DecidableEq

/-- The relational store: one list per relation plus the monotonic id counter
of the identity columns. -/
structure DB where
  tables : List Table
  menuItems : List MenuItem
  orders : List Order
  orderItems : List OrderItem
  payments : List Payment
  billShares : List BillShare
  nextId : Nat
deriving Repr, DecidableEq

/-- Well-formedness guaranteed by the store: identity columns are unique and
below the id counter, and order items reference already-assigned order ids. -/
def DB.WF (db : DB) : Prop :=
  (db.tables.map Table.id).Nodup ∧
  (db.menuItems.map MenuItem.id).Nodup ∧
  (db.orders.map Order.id).Nodup ∧
  (db.orderItems.map OrderItem.id).Nodup ∧
  (db.payments.map Payment.id).Nodup ∧
  (db.billShares.map BillShare.id).Nodup ∧
  (∀ o ∈ db.orders, o.id < db.nextId) ∧
  (∀ i ∈ db.orderItems, i.id < db.nextId) ∧
  (∀ i ∈ db.orderItems, i.orderId < db.nextId) ∧
  (∀ p ∈ db.payments, p.id < db.nextId) ∧
  (∀ s ∈ db.billShares, s.id < db.nextId)

/-- A rational is a whole number of cents, the value set of the scale-2
decimal columns of the schema. -/
def IsCents (q : ℚ) : Prop := ∃ k : ℤ, q = (k : ℚ) / 100

/-- Rounding to two decimal places, modelling Number.prototype.toFixed(2) on
the nonnegative totals produced by the engine; exact on cent values. -/
def toFixed2 (q : ℚ) : ℚ := ((⌊q * 100 + 1 / 2⌋ : ℤ) : ℚ) / 100

/-- Whitespace-trim on both ends, modelling String.prototype.trim. -/
def strTrim (s : String) : String :=
  ⟨((s.data.dropWhile Char.isWhitespace).reverse.dropWhile Char.isWhitespace).reverse⟩

/-- An order hydrated with its items, as returned by storage.getOrderById. -/
structure CompleteOrder where
  order : Order
  orderItems : List OrderItem
deriving Repr, DecidableEq

/-- Modelled from the spec: storage.getMenuItemById (storage.ts is not in
src/), a point lookup in the Persistence Gateway. -/
def getMenuItemById (id : Nat) (db : DB) : Option MenuItem :=
  db.menuItems.find? (fun m => m.id == id)

/-- Modelled from the spec: storage.getOrderItemById, a point lookup. -/
def getOrderItemById (id : Nat) (db : DB) : Option OrderItem :=
  db.orderItems.find? (fun i => i.id == id)

/-- Modelled from the spec: storage.getOrderById, a point lookup returning the
order hydrated with its items. -/
def getOrderById (id : Nat) (db : DB) : Option CompleteOrder :=
  (db.orders.find? (fun o => o.id == id)).map fun o =>
    { order := o, orderItems := db.orderItems.filter (fun i => i.orderId == o.id) }

/-- Modelled from the spec: storage.createOrder, an insert-returning with a
store-assigned monotonic id. -/
def createOrder (tableId : Nat) (status : String) (total : ℚ) (db : DB) : Order × DB :=
  let o : Order := { id := db.nextId, tableId := tableId, status := status, total := total }
  (o, { db with orders := db.orders ++ [o], nextId := db.nextId + 1 })

/-- Modelled from the spec: storage.createOrderItem, an insert-returning. -/
def createOrderItem (orderId menuItemId : Nat) (quantity : Nat) (notes : Option String)
    (status : String) (price : ℚ) (db : DB) : OrderItem × DB :=
  let i : OrderItem := { id := db.nextId, orderId := orderId, menuItemId := menuItemId,
                         quantity := quantity, notes := notes, status := status, price := price }
  (i, { db with orderItems := db.orderItems ++ [i], nextId := db.nextId + 1 })

/-- Modelled from the spec: storage.updateOrderTotal, an update of the derived
total column of one order row. -/
def updateOrderTotal (orderId : Nat) (total : ℚ) (db : DB) : DB :=
  { db with orders := db.orders.map fun o => if o.id == orderId then { o with total := total } else o }

/-- Modelled from the spec: storage.updateOrderStatus, an update-returning on
one order row; none when the row does not exist. -/
def updateOrderStatus (orderId : Nat) (status : String) (db : DB) : Option Order × DB :=
  match db.orders.find? (fun o => o.id == orderId) with
  | none => (none, db)
  | some o =>
    (some { o with status := status },
     { db with orders := db.orders.map fun x => if x.id == orderId then { x with status := status } else x })

/-- Modelled from the spec: storage.updateTableStatus, an update-returning on
one table row. -/
def updateTableStatus (tableId : Nat) (status : String) (db : DB) : Option Table × DB :=
  match db.tables.find? (fun t => t.id == tableId) with
  | none => (none, db)
  | some t =>
    (some { t with status := status },
     { db with tables := db.tables.map fun x => if x.id == tableId then { x with status := status } else x })

/-- Modelled from the spec: storage.updateOrderItemStatus, an unconditional
status overwrite with no transition table beyond the allowed enum values
(section 4.1); a value outside order_item_status is rejected by the store. -/
def updateOrderItemStatus (itemId : Nat) (status : String) (db : DB) : Option OrderItem × DB :=
  if orderItemStatusEnum.contains status then
    match db.orderItems.find? (fun i => i.id == itemId) with
    | none => (none, db)
    | some i =>
      (some { i with status := status },
       { db with orderItems := db.orderItems.map fun x => if x.id == itemId then { x with status := status } else x })
  else (none, db)

/-- Broadcast events with their documented payload shapes (section 6 of the
spec and the broadcast calls of the routes file). -/
inductive Event where
  | order_created (order : Option CompleteOrder)
  | order_confirmed (order : Option CompleteOrder)
  | order_item_status_updated (item : OrderItem) (order : Option CompleteOrder)
  | order_ready (order : CompleteOrder)
  | order_item_cancelled (order : Option CompleteOrder)
  | payment_processed (payment : Payment) (orderId : Nat) (tableId : Nat) (isSplit : Bool)
  | split_bill_completed (paymentId : Nat) (orderId : Nat) (tableId : Nat)
deriving Repr, DecidableEq

/-- Internal failures raised by the handlers, one constructor per distinct
error message of the source. -/
inductive Err where
  | orderItemNotFound
  | cannotCancelPrepared
  | orderNotFound
  | orderNotConfirmed
  | shareNameRequired (index : Nat)
  | shareAmountNotPositive (index : Nat)
  | sharesTotalMismatch (sharesTotal : ℚ) (orderTotal : ℚ)
  | atLeastOneShareRequired
  | invalidPaymentMethod
  | duplicateOrderPayment
  | shareNotFound
  | paymentMissingRef
deriving Repr, DecidableEq

/-- Result of a route handler: HTTP status, the store after the request, the
broadcast events emitted, and the error of the response envelope if any. -/
structure RouteResult where
  status : Nat
  db : DB
  events : List Event
  error : Option Err
deriving Repr, DecidableEq

/-- One requested item of the POST /api/orders body. -/
structure OrderItemInput where
  menuItemId : Nat
  quantity : Nat
  notes : Option String
deriving Repr, DecidableEq

/-- The per-item loop of POST /api/orders: resolve the menu item, skip it
silently when absent, otherwise insert the order item with the price snapshot
and accumulate quantity times price into the running total. -/
def createOrderLoop (oid : Nat) (items : List OrderItemInput) (acc : ℚ × DB) : ℚ × DB :=
  items.foldl
    (fun acc item =>
      match getMenuItemById item.menuItemId acc.2 with
      | none => acc
      | some menuItem =>
        let queuedStatus : String := "queued"
        let step := createOrderItem oid item.menuItemId item.quantity item.notes
          queuedStatus menuItem.price acc.2
        (acc.1 + menuItem.price * (item.quantity : ℚ), step.2))
    acc

/-- POST /api/orders: create the order in status pending with total 0.00, add
the resolvable items, store the recomputed total, flip the table to occupied,
and broadcast order_created with the hydrated order. -/
def createOrderRoute (tableId : Nat) (items : List OrderItemInput) (db : DB) : RouteResult :=
  let pendingStatus : String := "pending"
  let occupiedStatus : String := "occupied"
  let made := createOrder tableId pendingStatus 0 db
  let looped := createOrderLoop made.1.id items (0, made.2)
  let db2 := updateOrderTotal made.1.id (toFixed2 looped.1) looped.2
  let db3 := (updateTableStatus tableId occupiedStatus db2).2
  let completeOrder := getOrderById made.1.id db3
  { status := 201, db := db3, events := [Event.order_created completeOrder], error := none }

/-- PATCH /api/orders/:id/confirm: transition the order to confirmed and
broadcast order_confirmed; 404 when the order does not exist. -/
def confirmOrderRoute (orderId : Nat) (db : DB) : RouteResult :=
  let confirmedStatus : String := "confirmed"
  match updateOrderStatus orderId confirmedStatus db with
  | (none, _) => { status := 404, db := db, events := [], error := some Err.orderNotFound }
  | (some order, db1) =>
    let completeOrder := getOrderById order.id db1
    { status := 200, db := db1, events := [Event.order_confirmed completeOrder], error := none }

/-- The every-item check guarding the order_ready broadcast. -/
def allItemsReady (c : CompleteOrder) : Bool :=
  c.orderItems.all (fun i => i.status == "ready" || i.status == "delivered" || i.status == "cancelled")

/-- PATCH /api/orders/:orderId/items/:itemId/status: overwrite the item
status, broadcast order_item_status_updated with item and order, and when the
new status is ready and every item of the order is ready, delivered or
cancelled additionally broadcast order_ready. -/
def updateOrderItemStatusRoute (orderId itemId : Nat) (status : String) (db : DB) : RouteResult :=
  match updateOrderItemStatus itemId status db with
  | (none, _) => { status := 404, db := db, events := [], error := some Err.orderItemNotFound }
  | (some item, db1) =>
    let order := getOrderById orderId db1
    let readyEvents :=
      match order with
      | some o => if status == "ready" && allItemsReady o then [Event.order_ready o] else []
      | none => []
    { status := 200, db := db1,
      events := Event.order_item_status_updated item order :: readyEvents, error := none }

/-- PATCH /api/orders/:orderId/items/:itemId/cancel: only queued or pending
items may be cancelled; on success set the item to cancelled, recompute the
order total over the non-cancelled items, and broadcast order_item_cancelled
with the refreshed order. -/
def cancelOrderItemRoute (orderId itemId : Nat) (db : DB) : RouteResult :=
  let cancelledStatus : String := "cancelled"
  match getOrderItemById itemId db with
  | none => { status := 404, db := db, events := [], error := some Err.orderItemNotFound }
  | some item =>
    if !(["queued", "pending"].contains item.status) then
      { status := 400, db := db, events := [], error := some Err.cannotCancelPrepared }
    else
      let db1 := (updateOrderItemStatus itemId cancelledStatus db).2
      match getOrderById orderId db1 with
      | none => { status := 200, db := db1, events := [], error := none }
      | some order =>
        let activeItems := order.orderItems.filter (fun i => !(i.status == "cancelled"))
        let total := activeItems.foldl (fun sum i => sum + i.price * (i.quantity : ℚ)) 0
        let db2 := updateOrderTotal order.order.id (toFixed2 total) db1
        let updatedOrder := getOrderById order.order.id db2
        { status := 200, db := db2, events := [Event.order_item_cancelled updatedOrder], error := none }

/-- One requested share of the POST /api/split-bill body; the amount is the
parseFloat reading of the submitted value, none when it is not a number. -/
structure ShareInput where
  customerName : String
  amount : Option ℚ
deriving Repr, DecidableEq

/-- A share that passed the per-share validation of createSplitBill. -/
structure ValidatedShare where
  customerName : String
  amount : ℚ
deriving Repr, DecidableEq

/-- The per-share validation loop of POST /api/split-bill: a blank trimmed
customer name or a non-positive (or non-numeric) amount aborts the whole
operation naming the 1-based share index. -/
def validateShares : List ShareInput → Nat → Except Err (List ValidatedShare)
  | [], _ => Except.ok []
  | share :: rest, index =>
    if strTrim share.customerName == "" then Except.error (Err.shareNameRequired (index + 1))
    else
      match share.amount with
      | none => Except.error (Err.shareAmountNotPositive (index + 1))
      | some a =>
        if a ≤ 0 then Except.error (Err.shareAmountNotPositive (index + 1))
        else (validateShares rest (index + 1)).map
          (fun vs => { customerName := strTrim share.customerName, amount := a } :: vs)

/-- Insert of one payment row: insertPaymentSchema enforces the
payment_method enum, and the store enforces the unique constraint on the
orderId column of payments (shared/schema.ts). -/
def createPaymentTx (orderId tableId : Nat) (amount : ℚ) (method : String) (db : DB) :
    Except Err (Payment × DB) :=
  if !(paymentMethodEnum.contains method) then Except.error Err.invalidPaymentMethod
  else if db.payments.any (fun p => p.orderId == orderId) then Except.error Err.duplicateOrderPayment
  else
    let p : Payment := { id := db.nextId, orderId := orderId, tableId := tableId,
                         amount := amount, method := method }
    Except.ok (p, { db with payments := db.payments ++ [p], nextId := db.nextId + 1 })

/-- The per-share insert loop of POST /api/split-bill: one bill_shares row per
validated share, paid = false. -/
def createSharesLoop (paymentId : Nat) (vs : List ValidatedShare) (acc : List BillShare × DB) :
    List BillShare × DB :=
  vs.foldl
    (fun acc s =>
      let bs : BillShare := { id := acc.2.nextId, paymentId := paymentId,
                              customerName := s.customerName, amount := s.amount, paid := false }
      (acc.1 ++ [bs], { acc.2 with billShares := acc.2.billShares ++ [bs], nextId := acc.2.nextId + 1 }))
    acc

/-- The transaction body of POST /api/split-bill: load the order (NotFound if
absent), require status confirmed, validate every share, require the share
sum to be within one cent of the authoritative order total, then insert one
payment row with amount equal to the order total and one bill share per
validated share. -/
def splitBillTxBody (orderId tableId : Nat) (method : String) (shares : List ShareInput)
    (db : DB) : Except Err (Payment × List BillShare × DB) :=
  match db.orders.find? (fun o => o.id == orderId) with
  | none => Except.error Err.orderNotFound
  | some order =>
    if !(order.status == "confirmed") then Except.error Err.orderNotConfirmed
    else
      let authoritativeTotal := order.total
      match validateShares shares 0 with
      | Except.error e => Except.error e
      | Except.ok validatedShares =>
        let sharesTotal := validatedShares.foldl (fun sum s => sum + s.amount) 0
        if |sharesTotal - authoritativeTotal| > 1 / 100 then
          Except.error (Err.sharesTotalMismatch sharesTotal authoritativeTotal)
        else
          match createPaymentTx orderId tableId order.total method db with
          | Except.error e => Except.error e
          | Except.ok (payment, db1) =>
            let made := createSharesLoop payment.id validatedShares ([], db1)
            Except.ok (payment, made.1, made.2)

/-- POST /api/split-bill: an empty share list is rejected before the
transaction; the transaction body runs atomically, a failure rolls the store
back and maps to 400; success returns 201 and broadcasts nothing. -/
def createSplitBillRoute (orderId tableId : Nat) (method : String) (shares : List ShareInput)
    (db : DB) : RouteResult :=
  if shares.isEmpty then
    { status := 400, db := db, events := [], error := some Err.atLeastOneShareRequired }
  else
    match splitBillTxBody orderId tableId method shares db with
    | Except.ok r => { status := 201, db := r.2.2, events := [], error := none }
    | Except.error e => { status := 400, db := db, events := [], error := some e }

/-- POST /api/payments: insert the payment row; unless the split-bill flag is
set, immediately complete the order and free the table; broadcast
payment_processed. -/
def recordPaymentRoute (orderId tableId : Nat) (amount : ℚ) (method : String)
    (isSplitBill : Bool) (db : DB) : RouteResult :=
  let completedStatus : String := "completed"
  let freeStatus : String := "free"
  match createPaymentTx orderId tableId amount method db with
  | Except.error e => { status := 400, db := db, events := [], error := some e }
  | Except.ok (payment, db1) =>
    let db2 :=
      if !isSplitBill then
        (updateTableStatus tableId freeStatus (updateOrderStatus orderId completedStatus db1).2).2
      else db1
    { status := 201, db := db2,
      events := [Event.payment_processed payment orderId tableId isSplitBill], error := none }

/-- One step of the observable behaviour of a transactional route: a
broadcast emission, the transaction commit, or its rollback, in program
order. -/
inductive TxAction where
  | emit (e : Event)
  | commit
  | rollback
deriving Repr, DecidableEq

/-- Result of the transactional PATCH /api/bill-shares/:id/paid route,
recording the ordered trace of emissions and the commit or rollback. -/
structure TxRouteResult where
  status : Nat
  db : DB
  trace : List TxAction
  error : Option Err
deriving Repr, DecidableEq

/-- The broadcasts contained in a transactional trace. -/
def TxRouteResult.events (r : TxRouteResult) : List Event :=
  r.trace.filterMap fun a =>
    match a with
    | TxAction.emit e => some e
    | _ => none

/-- The update-returning flip of the paid flag of one bill share. -/
def updateBillSharePaid (shareId : Nat) (db : DB) : Option (BillShare × DB) :=
  match db.billShares.find? (fun s => s.id == shareId) with
  | none => none
  | some s =>
    some ({ s with paid := true },
      { db with billShares := db.billShares.map fun t => if t.id == shareId then { t with paid := true } else t })

/-- The transaction callback of PATCH /api/bill-shares/:id/paid: flip the paid
flag (failing when the row is absent), read all shares of the same payment,
and when every one is paid look up the payment (failing when it or its
references are missing), complete the order, free the table, and call
broadcast split_bill_completed inside the callback.  The returned event list
is exactly the broadcasts called inside the transaction, in order.  The
paymentId, orderId and tableId columns are notNull in shared/schema.ts, so
the source null checks on them reduce to the existence checks kept here. -/
def markShareAsPaidTxBody (shareId : Nat) (db : DB) : Except Err (DB × List Event) :=
  let completedStatus : String := "completed"
  let freeStatus : String := "free"
  match updateBillSharePaid shareId db with
  | none => Except.error Err.shareNotFound
  | some (updatedShare, db1) =>
    let allShares := db1.billShares.filter (fun s => s.paymentId == updatedShare.paymentId)
    let allPaid := allShares.all (fun s => s.paid)
    if allPaid then
      match db1.payments.find? (fun p => p.id == updatedShare.paymentId) with
      | none => Except.error Err.paymentMissingRef
      | some payment =>
        let updOrder : Order → Order := fun o =>
          if o.id == payment.orderId then { o with status := completedStatus } else o
        let updTable : Table → Table := fun t =>
          if t.id == payment.tableId then { t with status := freeStatus } else t
        let db2 := { db1 with orders := db1.orders.map updOrder }
        let db3 := { db2 with tables := db2.tables.map updTable }
        Except.ok (db3, [Event.split_bill_completed updatedShare.paymentId payment.orderId payment.tableId])
    else Except.ok (db1, [])

/-- PATCH /api/bill-shares/:id/paid: run the transaction callback; since the
source calls broadcast inside the callback, every emission of the trace
precedes the commit marker; a failing callback rolls back, emits nothing and
maps to 500. -/
def markShareAsPaidRoute (shareId : Nat) (db : DB) : TxRouteResult :=
  match markShareAsPaidTxBody shareId db with
  | Except.ok r =>
    { status := 200, db := r.1, trace := r.2.map TxAction.emit ++ [TxAction.commit], error := none }
  | Except.error e =>
    { status := 500, db := db, trace := [TxAction.rollback], error := some e }

/-- Sum of quantity times snapshot price over the non-cancelled items of one
order, the specification formula for the derived order total. -/
def activeTotal (items : List OrderItem) (orderId : Nat) : ℚ :=
  ((items.filter (fun i => i.orderId == orderId && !(i.status == "cancelled"))).map
    (fun i => i.price * (i.quantity : ℚ))).sum

/-- The spec invariant: every stored order total equals the sum of price
times quantity over its non-cancelled items. -/
def TotalInvariant (db : DB) : Prop :=
  ∀ o ∈ db.orders, o.total = activeTotal db.orderItems o.id

/-! Helper lemmas. -/

theorem foldl_add_map_sum {α : Type} (f : α → ℚ) :
    ∀ (l : List α) (a : ℚ), List.foldl (fun s x => s + f x) a l = a + (l.map f).sum := by
  intro l
  induction l with
  | nil => intro a; simp
  | cons x xs ih => intro a; simp [ih, add_assoc]

theorem isCents_zero : IsCents 0 := ⟨0, by norm_num⟩

theorem IsCents.add {p q : ℚ} (hp : IsCents p) (hq : IsCents q) : IsCents (p + q) := by
  obtain ⟨k, hk⟩ := hp
  obtain ⟨m, hm⟩ := hq
  exact ⟨k + m, by rw [hk, hm]; push_cast; ring⟩

theorem IsCents.mul_nat {p : ℚ} (n : Nat) (hp : IsCents p) : IsCents (p * (n : ℚ)) := by
  obtain ⟨k, hk⟩ := hp
  exact ⟨k * n, by rw [hk]; push_cast; ring⟩

theorem isCents_sum (l : List ℚ) (h : ∀ q ∈ l, IsCents q) : IsCents l.sum := by
  induction l with
  | nil => simpa using isCents_zero
  | cons x xs ih =>
    rw [List.sum_cons]
    exact (h x (by simp)).add (ih fun q hq => h q (by simp [hq]))

theorem toFixed2_cents {q : ℚ} (h : IsCents q) : toFixed2 q = q := by
  obtain ⟨k, hk⟩ := h
  have h100 : q * 100 = (k : ℚ) := by rw [hk]; ring
  have hfloor : ⌊q * 100 + 1 / 2⌋ = k := by
    rw [h100]
    rw [Int.floor_int_add]
    norm_num
  rw [toFixed2, hfloor, hk]

theorem map_update_id {α : Type} (p : α → Bool) (f : α → α) (l : List α)
    (h : ∀ x ∈ l, p x = true → f x = x) :
    (l.map fun x => if p x then f x else x) = l := by
  rw [show l = l.map id by simp]
  rw [List.map_map]
  apply List.map_congr_left
  intro x hx
  by_cases hp : p x = true
  · simp [hp, h x (by simpa using hx) hp]
  · simp [hp]

theorem getMenuItemById_eq_of_menu {db db2 : DB} (h : db2.menuItems = db.menuItems) (k : Nat) :
    getMenuItemById k db2 = getMenuItemById k db := by
  unfold getMenuItemById
  rw [h]

/-- Amount contributed by one requested item: quantity times the current menu
price, none when the menu item does not resolve. -/
def requestedAmount (db : DB) (it : OrderItemInput) : Option ℚ :=
  (getMenuItemById it.menuItemId db).map (fun m => m.price * (it.quantity : ℚ))

theorem createOrderLoop_spec (oid : Nat) (items : List OrderItemInput) :
    ∀ (t : ℚ) (db : DB), ∃ newItems : List OrderItem,
      (createOrderLoop oid items (t, db)).2.orderItems = db.orderItems ++ newItems ∧
      (createOrderLoop oid items (t, db)).2.orders = db.orders ∧
      (createOrderLoop oid items (t, db)).2.tables = db.tables ∧
      (createOrderLoop oid items (t, db)).2.menuItems = db.menuItems ∧
      (createOrderLoop oid items (t, db)).2.payments = db.payments ∧
      (createOrderLoop oid items (t, db)).2.billShares = db.billShares ∧
      db.nextId ≤ (createOrderLoop oid items (t, db)).2.nextId ∧
      (createOrderLoop oid items (t, db)).1 = t + (items.filterMap (requestedAmount db)).sum ∧
      (newItems.map (fun i => i.price * (i.quantity : ℚ))).sum
        = (items.filterMap (requestedAmount db)).sum ∧
      newItems.length = (items.filter (fun it => (getMenuItemById it.menuItemId db).isSome)).length ∧
      (∀ i ∈ newItems, i.orderId = oid ∧ i.status = "queued" ∧
        (∃ it ∈ items, i.menuItemId = it.menuItemId ∧ i.quantity = it.quantity ∧ i.notes = it.notes) ∧
        (∃ m, getMenuItemById i.menuItemId db = some m ∧ i.price = m.price)) := by
  induction items with
  | nil =>
    intro t db
    exact ⟨[], by simp [createOrderLoop, requestedAmount]⟩
  | cons item rest ih =>
    intro t db
    cases hm : getMenuItemById item.menuItemId db with
    | none =>
      have hstep : createOrderLoop oid (item :: rest) (t, db) = createOrderLoop oid rest (t, db) := by
        simp [createOrderLoop, List.foldl_cons, hm]
      have hreq : requestedAmount db item = none := by
        simp [requestedAmount, hm]
      obtain ⟨newItems, h1, h2, h3, h4, h5, h6, h7, h8, h9, h10, h11⟩ := ih t db
      refine ⟨newItems, ?_, ?_, ?_, ?_, ?_, ?_, ?_, ?_, ?_, ?_, ?_⟩
      · rw [hstep]; exact h1
      · rw [hstep]; exact h2
      · rw [hstep]; exact h3
      · rw [hstep]; exact h4
      · rw [hstep]; exact h5
      · rw [hstep]; exact h6
      · rw [hstep]; exact h7
      · rw [hstep, h8, List.filterMap_cons_none hreq]
      · rw [h9, List.filterMap_cons_none hreq]
      · rw [h10, List.filter_cons_of_neg (by simp [hm])]
      · intro i hi
        obtain ⟨ho, hs, ⟨it, hit, hprops⟩, hsnap⟩ := h11 i hi
        exact ⟨ho, hs, ⟨it, List.mem_cons_of_mem _ hit, hprops⟩, hsnap⟩
    | some m =>
      obtain ⟨newIt, hnew⟩ : ∃ x : OrderItem,
          x = { id := db.nextId,
                orderId := oid,
                menuItemId := item.menuItemId,
                quantity := item.quantity,
                notes := item.notes,
                status := "queued",
                price := m.price } := ⟨_, rfl⟩
      obtain ⟨dbA, hdbA⟩ : ∃ x : DB,
          x = { db with orderItems := db.orderItems ++ [newIt], nextId := db.nextId + 1 } := ⟨_, rfl⟩
      have hstep : createOrderLoop oid (item :: rest) (t, db)
          = createOrderLoop oid rest (t + m.price * (item.quantity : ℚ), dbA) := by
        simp [createOrderLoop, List.foldl_cons, hm, createOrderItem, hdbA, hnew]
      have hmenuA : dbA.menuItems = db.menuItems := by rw [hdbA]
      have hlookA : ∀ k, getMenuItemById k dbA = getMenuItemById k db :=
        fun k => getMenuItemById_eq_of_menu hmenuA k
      have hreqA : ∀ it2 ∈ rest, requestedAmount dbA it2 = requestedAmount db it2 := by
        intro it2 _
        unfold requestedAmount
        rw [hlookA]
      have hreq : requestedAmount db item = some (m.price * (item.quantity : ℚ)) := by
        simp [requestedAmount, hm]
      have hfilterEq : rest.filter (fun it => (getMenuItemById it.menuItemId dbA).isSome)
          = rest.filter (fun it => (getMenuItemById it.menuItemId db).isSome) := by
        apply List.filter_congr
        intro a _
        rw [hlookA]
      obtain ⟨newRest, h1, h2, h3, h4, h5, h6, h7, h8, h9, h10, h11⟩ :=
        ih (t + m.price * (item.quantity : ℚ)) dbA
      have hnextA : dbA.nextId = db.nextId + 1 := by rw [hdbA]
      refine ⟨newIt :: newRest, ?_, ?_, ?_, ?_, ?_, ?_, ?_, ?_, ?_, ?_, ?_⟩
      · rw [hstep, h1]
        simp [hdbA]
      · rw [hstep, h2, hdbA]
      · rw [hstep, h3, hdbA]
      · rw [hstep, h4, hdbA]
      · rw [hstep, h5, hdbA]
      · rw [hstep, h6, hdbA]
      · rw [hstep]
        calc db.nextId ≤ dbA.nextId := by rw [hnextA]; exact Nat.le_succ _
          _ ≤ _ := h7
      · rw [hstep, h8, List.filterMap_congr hreqA, List.filterMap_cons_some hreq]
        simp [add_assoc]
      · rw [List.filterMap_cons_some hreq]
        simp only [List.map_cons, List.sum_cons, h9, List.filterMap_congr hreqA]
        simp [hnew]
      · rw [List.filter_cons_of_pos (by simp [hm])]
        simp [h10, hfilterEq]
      · intro i hi
        rcases List.mem_cons.mp hi with hEq | hMem
        · subst hEq
          subst hnew
          refine ⟨rfl, rfl, ⟨item, List.mem_cons_self _ _, rfl, rfl, rfl⟩, ⟨m, ?_, rfl⟩⟩
          simpa using hm
        · obtain ⟨ho, hs, ⟨it, hit, hprops⟩, m2, hm2, hp2⟩ := h11 i hMem
          exact ⟨ho, hs, ⟨it, List.mem_cons_of_mem _ hit, hprops⟩,
            ⟨m2, (hlookA i.menuItemId) ▸ hm2, hp2⟩⟩

/-- Sum of the parsed amounts submitted with a split-bill request. -/
def inputSum (shares : List ShareInput) : ℚ := (shares.filterMap ShareInput.amount).sum

/-- A share input that passes the per-share validation rules. -/
def ShareOK (s : ShareInput) : Prop :=
  ¬ strTrim s.customerName = "" ∧ ∃ a, s.amount = some a ∧ 0 < a

theorem validateShares_ok_valid : ∀ (shares : List ShareInput) (idx : ℕ) (vs : List ValidatedShare),
    validateShares shares idx = Except.ok vs → ∀ s ∈ shares, ShareOK s := by
  intro shares
  induction shares with
  | nil =>
    intro idx vs _ s hs
    cases hs
  | cons share rest ih =>
    intro idx vs h s hs
    rw [validateShares] at h
    by_cases hname : (strTrim share.customerName == "") = true
    · rw [if_pos hname] at h
      cases h
    · rw [if_neg hname] at h
      cases ha : share.amount with
      | none =>
        rw [ha] at h
        cases h
      | some a =>
        rw [ha] at h
        dsimp only at h
        by_cases hpos : a ≤ 0
        · rw [if_pos hpos] at h
          cases h
        · rw [if_neg hpos] at h
          cases hrest : validateShares rest (idx + 1) with
          | error e =>
            rw [hrest] at h
            cases h
          | ok vsr =>
            rcases List.mem_cons.mp hs with hEq | hMem
            · subst hEq
              exact ⟨by simpa using hname, a, ha, lt_of_not_le hpos⟩
            · exact ih (idx + 1) vsr hrest s hMem

theorem validateShares_ok_shape : ∀ (shares : List ShareInput) (idx : ℕ) (vs : List ValidatedShare),
    validateShares shares idx = Except.ok vs →
    vs.map ValidatedShare.amount = shares.filterMap ShareInput.amount ∧
    vs.length = shares.length := by
  intro shares
  induction shares with
  | nil =>
    intro idx vs h
    rw [validateShares] at h
    cases h
    simp
  | cons share rest ih =>
    intro idx vs h
    rw [validateShares] at h
    by_cases hname : (strTrim share.customerName == "") = true
    · rw [if_pos hname] at h
      cases h
    · rw [if_neg hname] at h
      cases ha : share.amount with
      | none =>
        rw [ha] at h
        cases h
      | some a =>
        rw [ha] at h
        dsimp only at h
        by_cases hpos : a ≤ 0
        · rw [if_pos hpos] at h
          cases h
        · rw [if_neg hpos] at h
          cases hrest : validateShares rest (idx + 1) with
          | error e =>
            rw [hrest] at h
            cases h
          | ok vsr =>
            rw [hrest] at h
            cases h
            obtain ⟨hmap, hlen⟩ := ih (idx + 1) vsr hrest
            constructor
            · rw [List.map_cons, hmap, List.filterMap_cons_some ha]
            · rw [List.length_cons, hlen, List.length_cons]

theorem validateShares_ok_of_valid : ∀ (shares : List ShareInput) (idx : ℕ),
    (∀ s ∈ shares, ShareOK s) → ∃ vs, validateShares shares idx = Except.ok vs := by
  intro shares
  induction shares with
  | nil =>
    intro idx _
    exact ⟨[], rfl⟩
  | cons share rest ih =>
    intro idx hvalid
    obtain ⟨hname, a, ha, hpos⟩ := hvalid share (List.mem_cons_self _ _)
    obtain ⟨vsr, hrest⟩ := ih (idx + 1) fun s hs => hvalid s (List.mem_cons_of_mem _ hs)
    refine ⟨{ customerName := strTrim share.customerName, amount := a } :: vsr, ?_⟩
    rw [validateShares, if_neg (by simpa using hname), ha]
    dsimp only
    rw [if_neg (not_le.mpr hpos), hrest]
    rfl

theorem createSharesLoop_spec (pid : Nat) (vs : List ValidatedShare) :
    ∀ acc : List BillShare × DB, ∃ news : List BillShare,
      (createSharesLoop pid vs acc).1 = acc.1 ++ news ∧
      (createSharesLoop pid vs acc).2.billShares = acc.2.billShares ++ news ∧
      (createSharesLoop pid vs acc).2.orders = acc.2.orders ∧
      (createSharesLoop pid vs acc).2.tables = acc.2.tables ∧
      (createSharesLoop pid vs acc).2.menuItems = acc.2.menuItems ∧
      (createSharesLoop pid vs acc).2.orderItems = acc.2.orderItems ∧
      (createSharesLoop pid vs acc).2.payments = acc.2.payments ∧
      news.length = vs.length ∧
      (∀ b ∈ news, b.paid = false ∧ b.paymentId = pid) := by
  induction vs with
  | nil =>
    intro acc
    exact ⟨[], by simp [createSharesLoop]⟩
  | cons v rest ih =>
    intro acc
    obtain ⟨bs, hbs⟩ : ∃ x : BillShare,
        x = { id := acc.2.nextId,
              paymentId := pid,
              customerName := v.customerName,
              amount := v.amount,
              paid := false } := ⟨_, rfl⟩
    obtain ⟨dbB, hdbB⟩ : ∃ x : DB,
        x = { acc.2 with
              billShares := acc.2.billShares ++ [bs],
              nextId := acc.2.nextId + 1 } := ⟨_, rfl⟩
    obtain ⟨accA, haccA⟩ : ∃ x : List BillShare × DB, x = (acc.1 ++ [bs], dbB) := ⟨_, rfl⟩
    have hstep : createSharesLoop pid (v :: rest) acc = createSharesLoop pid rest accA := by
      rw [haccA, hdbB, hbs]
      simp [createSharesLoop, List.foldl_cons]
    obtain ⟨news2, h1, h2, h3, h4, h5, h6, h7, h8, h9⟩ := ih accA
    refine ⟨bs :: news2, ?_, ?_, ?_, ?_, ?_, ?_, ?_, ?_, ?_⟩
    · rw [hstep, h1]
      simp [haccA]
    · rw [hstep, h2]
      simp [haccA, hdbB]
    · rw [hstep, h3]
      simp [haccA, hdbB]
    · rw [hstep, h4]
      simp [haccA, hdbB]
    · rw [hstep, h5]
      simp [haccA, hdbB]
    · rw [hstep, h6]
      simp [haccA, hdbB]
    · rw [hstep, h7]
      simp [haccA, hdbB]
    · rw [List.length_cons, h8, List.length_cons]
    · intro b hb
      rcases List.mem_cons.mp hb with hEq | hMem
      · subst hEq
        subst hbs
        exact ⟨rfl, rfl⟩
      · exact h9 b hMem

theorem createPaymentTx_ok {orderId tableId : Nat} {amount : ℚ} {method : String} {db : DB}
    {p : Payment} {db1 : DB}
    (h : createPaymentTx orderId tableId amount method db = Except.ok (p, db1)) :
    p = { id := db.nextId, orderId := orderId, tableId := tableId,
          amount := amount, method := method } ∧
    db1 = { db with payments := db.payments ++ [p], nextId := db.nextId + 1 } ∧
    paymentMethodEnum.contains method = true ∧
    db.payments.any (fun x => x.orderId == orderId) = false := by
  rw [createPaymentTx] at h
  by_cases hm : paymentMethodEnum.contains method = true
  · rw [if_neg (by rw [hm]; simp)] at h
    by_cases hd : db.payments.any (fun x => x.orderId == orderId) = true
    · rw [if_pos hd] at h
      cases h
    · rw [if_neg hd] at h
      dsimp only at h
      simp only [Except.ok.injEq, Prod.mk.injEq] at h
      obtain ⟨hp, hdb⟩ := h
      subst hp
      subst hdb
      exact ⟨rfl, rfl, hm, by simpa using hd⟩
  · rw [if_pos (by simpa using hm)] at h
    cases h

theorem createPaymentTx_accepts {orderId tableId : Nat} {amount : ℚ} {method : String} {db : DB}
    (hm : paymentMethodEnum.contains method = true)
    (hd : db.payments.any (fun x => x.orderId == orderId) = false) :
    ∃ r, createPaymentTx orderId tableId amount method db = Except.ok r := by
  rw [createPaymentTx, if_neg (by rw [hm]; simp), if_neg (by rw [hd]; simp)]
  exact ⟨_, rfl⟩

theorem sharesTotal_eq_inputSum {shares : List ShareInput} {vs : List ValidatedShare}
    (hv : validateShares shares 0 = Except.ok vs) :
    vs.foldl (fun sum s => sum + s.amount) 0 = inputSum shares := by
  rw [foldl_add_map_sum ValidatedShare.amount vs 0]
  rw [(validateShares_ok_shape shares 0 vs hv).1]
  simp [inputSum]

theorem splitBillTxBody_ok {orderId tableId : Nat} {method : String} {shares : List ShareInput}
    {db : DB} {p : Payment} {ns : List BillShare} {db1 : DB}
    (h : splitBillTxBody orderId tableId method shares db = Except.ok (p, ns, db1)) :
    ∃ order, db.orders.find? (fun o => o.id == orderId) = some order ∧
      order.status = "confirmed" ∧
      (∀ s ∈ shares, ShareOK s) ∧
      |inputSum shares - order.total| ≤ 1 / 100 ∧
      p.amount = order.total ∧
      db1.payments = db.payments ++ [p] ∧
      db1.billShares = db.billShares ++ ns ∧
      ns.length = shares.length ∧
      (∀ b ∈ ns, b.paid = false ∧ b.paymentId = p.id) ∧
      db1.orders = db.orders ∧
      db1.orderItems = db.orderItems ∧
      db1.tables = db.tables ∧
      db1.menuItems = db.menuItems := by
  rw [splitBillTxBody] at h
  cases hfind : db.orders.find? (fun o => o.id == orderId) with
  | none =>
    rw [hfind] at h
    cases h
  | some order =>
    rw [hfind] at h
    dsimp only at h
    by_cases hconf : order.status = "confirmed"
    · rw [if_neg (by simp [hconf])] at h
      cases hv : validateShares shares 0 with
      | error e =>
        rw [hv] at h
        cases h
      | ok vs =>
        rw [hv] at h
        dsimp only at h
        rw [sharesTotal_eq_inputSum hv] at h
        by_cases htol : |inputSum shares - order.total| > 1 / 100
        · rw [if_pos htol] at h
          cases h
        · rw [if_neg htol] at h
          cases hpay : createPaymentTx orderId tableId order.total method db with
          | error e =>
            rw [hpay] at h
            cases h
          | ok pr =>
            rw [hpay] at h
            dsimp only at h
            simp only [Except.ok.injEq, Prod.mk.injEq] at h
            obtain ⟨hp, hns, hdb1⟩ := h
            obtain ⟨hpay1, hpay2, _, _⟩ := createPaymentTx_ok
              (show createPaymentTx orderId tableId order.total method db
                = Except.ok (pr.1, pr.2) by rw [hpay])
            obtain ⟨news, l1, l2, l3, l4, l5, l6, l7, l8, l9⟩ :=
              createSharesLoop_spec pr.1.id vs ([], pr.2)
            subst hp
            subst hns
            subst hdb1
            refine ⟨order, rfl, hconf, validateShares_ok_valid shares 0 vs hv,
              not_lt.mp htol, ?_, ?_, ?_, ?_, ?_, ?_, ?_, ?_, ?_⟩
            · simp [hpay1]
            · rw [l7]
              simp [hpay2]
            · rw [l2, l1]
              simp [hpay2]
            · rw [l1]
              simp [l8, (validateShares_ok_shape shares 0 vs hv).2]
            · intro b hb
              rw [l1] at hb
              simp at hb
              exact l9 b hb
            · rw [l3]
              simp [hpay2]
            · rw [l6]
              simp [hpay2]
            · rw [l4]
              simp [hpay2]
            · rw [l5]
              simp [hpay2]
    · rw [if_pos (by simp [hconf])] at h
      cases h

theorem splitBillTxBody_accepts {orderId tableId : Nat} {method : String}
    {shares : List ShareInput} {db : DB} {order : Order}
    (hfind : db.orders.find? (fun o => o.id == orderId) = some order)
    (hconf : order.status = "confirmed")
    (hvalid : ∀ s ∈ shares, ShareOK s)
    (htol : |inputSum shares - order.total| ≤ 1 / 100)
    (hm : paymentMethodEnum.contains method = true)
    (hd : db.payments.any (fun x => x.orderId == orderId) = false) :
    ∃ r, splitBillTxBody orderId tableId method shares db = Except.ok r := by
  obtain ⟨vs, hv⟩ := validateShares_ok_of_valid shares 0 hvalid
  obtain ⟨pr, hpay⟩ := @createPaymentTx_accepts orderId tableId order.total method db hm hd
  rw [splitBillTxBody, hfind]
  dsimp only
  rw [if_neg (by simp [hconf]), hv]
  dsimp only
  rw [sharesTotal_eq_inputSum hv, if_neg (not_lt.mpr htol), hpay]
  exact ⟨_, rfl⟩

theorem updateBillSharePaid_eq {db : DB} {shareId : Nat} {sh : BillShare}
    (hfind : db.billShares.find? (fun s => s.id == shareId) = some sh) :
    updateBillSharePaid shareId db
      = some ({ sh with paid := true },
        { db with billShares := db.billShares.map (fun t => if t.id == shareId then { t with paid := true } else t) }) := by
  rw [updateBillSharePaid, hfind]

/-- C3: markShareAsPaid on the last unpaid share of a payment completes the
order and frees the table in the same transaction and broadcasts
split_bill_completed, while marking a share paid when an unpaid sibling
remains changes only the paid flag of that share and leaves orders and
tables untouched. -/
theorem c3_markShareAsPaid_spec (db : DB) (shareId : Nat) (sh : BillShare) (pay : Payment)
    (hfind : db.billShares.find? (fun s => s.id == shareId) = some sh)
    (hpay : db.payments.find? (fun p => p.id == sh.paymentId) = some pay) :
    ((∀ s ∈ db.billShares, s.paymentId = sh.paymentId → s.id ≠ sh.id → s.paid = true) →
      (markShareAsPaidRoute shareId db).status = 200 ∧
      (∀ o ∈ (markShareAsPaidRoute shareId db).db.orders,
        o.id = pay.orderId → o.status = "completed") ∧
      (∀ t ∈ (markShareAsPaidRoute shareId db).db.tables,
        t.id = pay.tableId → t.status = "free") ∧
      (∀ s ∈ (markShareAsPaidRoute shareId db).db.billShares,
        s.id = shareId → s.paid = true) ∧
      (markShareAsPaidRoute shareId db).events
        = [Event.split_bill_completed sh.paymentId pay.orderId pay.tableId]) ∧
    ((∃ s ∈ db.billShares, s.paymentId = sh.paymentId ∧ s.id ≠ sh.id ∧ s.paid = false) →
      (markShareAsPaidRoute shareId db).status = 200 ∧
      (markShareAsPaidRoute shareId db).db.orders = db.orders ∧
      (markShareAsPaidRoute shareId db).db.tables = db.tables ∧
      (markShareAsPaidRoute shareId db).db.payments = db.payments ∧
      (markShareAsPaidRoute shareId db).db.orderItems = db.orderItems ∧
      (markShareAsPaidRoute shareId db).db.billShares
        = db.billShares.map (fun t => if t.id == shareId then { t with paid := true } else t) ∧
      (markShareAsPaidRoute shareId db).events = []) := by
  have hshid : sh.id = shareId := by simpa using List.find?_some hfind
  obtain ⟨sh2, hsh2⟩ : ∃ x : BillShare, x = { sh with paid := true } := ⟨_, rfl⟩
  obtain ⟨db1, hdb1⟩ : ∃ x : DB,
      x = { db with billShares := db.billShares.map (fun t => if t.id == shareId then { t with paid := true } else t) } := ⟨_, rfl⟩
  have hupd : updateBillSharePaid shareId db = some (sh2, db1) := by
    rw [updateBillSharePaid_eq hfind, hsh2, hdb1]
  have hpid2 : sh2.paymentId = sh.paymentId := by rw [hsh2]
  constructor
  · intro hsib
    have hall : (db1.billShares.filter (fun s => s.paymentId == sh2.paymentId)).all
        (fun s => s.paid) = true := by
      rw [List.all_eq_true]
      intro s hsmem
      rw [List.mem_filter] at hsmem
      obtain ⟨hmem, hpidmatch⟩ := hsmem
      rw [hdb1] at hmem
      simp only [List.mem_map] at hmem
      obtain ⟨t, htmem, hteq⟩ := hmem
      by_cases htid : (t.id == shareId) = true
      · rw [if_pos htid] at hteq
        rw [← hteq]
      · rw [if_neg htid] at hteq
        rw [← hteq] at hpidmatch ⊢
        have hpidt : t.paymentId = sh.paymentId := by
          rw [hpid2] at hpidmatch
          simpa using hpidmatch
        have hne : t.id ≠ sh.id := by
          rw [hshid]
          simpa using htid
        exact hsib t htmem hpidt hne
    have hpay1 : db1.payments.find? (fun p => p.id == sh2.paymentId) = some pay := by
      rw [hdb1, hpid2]
      exact hpay
    obtain ⟨db2, hdb2⟩ : ∃ x : DB,
        x = { db1 with orders := db1.orders.map (fun o =>
              if o.id == pay.orderId then { o with status := "completed" } else o) } := ⟨_, rfl⟩
    obtain ⟨db3, hdb3⟩ : ∃ x : DB,
        x = { db2 with tables := db2.tables.map (fun t =>
              if t.id == pay.tableId then { t with status := "free" } else t) } := ⟨_, rfl⟩
    have hbody : markShareAsPaidTxBody shareId db
        = Except.ok (db3, [Event.split_bill_completed sh2.paymentId pay.orderId pay.tableId]) := by
      rw [markShareAsPaidTxBody, hupd]
      dsimp only
      rw [hall]
      rw [if_pos rfl, hpay1]
      rw [hdb3, hdb2]
    have hroute : markShareAsPaidRoute shareId db
        = { status := 200, db := db3,
            trace := [TxAction.emit (Event.split_bill_completed sh2.paymentId pay.orderId pay.tableId),
                      TxAction.commit],
            error := none } := by
      rw [markShareAsPaidRoute, hbody]
      rfl
    rw [hroute]
    refine ⟨rfl, ?_, ?_, ?_, ?_⟩
    · intro o hmem
      rw [hdb3, hdb2] at hmem
      simp only [List.mem_map] at hmem
      obtain ⟨x, _, hxeq⟩ := hmem
      intro hid
      by_cases hxid : (x.id == pay.orderId) = true
      · rw [if_pos hxid] at hxeq
        rw [← hxeq]
      · rw [if_neg hxid] at hxeq
        subst hxeq
        exact absurd (by simpa using hid) (by simpa using hxid)
    · intro t hmem
      rw [hdb3] at hmem
      simp only [List.mem_map] at hmem
      obtain ⟨x, _, hxeq⟩ := hmem
      intro hid
      by_cases hxid : (x.id == pay.tableId) = true
      · rw [if_pos hxid] at hxeq
        rw [← hxeq]
      · rw [if_neg hxid] at hxeq
        subst hxeq
        exact absurd (by simpa using hid) (by simpa using hxid)
    · intro s hmem
      have hmem1 : s ∈ db1.billShares := by
        rw [hdb3, hdb2] at hmem
        exact hmem
      rw [hdb1] at hmem1
      simp only [List.mem_map] at hmem1
      obtain ⟨x, _, hxeq⟩ := hmem1
      intro hid
      by_cases hxid : (x.id == shareId) = true
      · rw [if_pos hxid] at hxeq
        rw [← hxeq]
      · rw [if_neg hxid] at hxeq
        subst hxeq
        exact absurd (by simpa using hid) (by simpa using hxid)
    · rw [hpid2]
      rfl
  · intro hsib
    obtain ⟨s0, hs0mem, hs0pid, hs0ne, hs0unpaid⟩ := hsib
    have hs0id : (s0.id == shareId) = false := by
      rw [← hshid]
      simpa using hs0ne
    have hall : (db1.billShares.filter (fun s => s.paymentId == sh2.paymentId)).all
        (fun s => s.paid) = false := by
      rw [List.all_eq_false]
      refine ⟨s0, ?_, by simp [hs0unpaid]⟩
      rw [List.mem_filter]
      constructor
      · rw [hdb1]
        simp only [List.mem_map]
        exact ⟨s0, hs0mem, by rw [if_neg (by simp [hs0id])]⟩
      · rw [hpid2]
        simp [hs0pid]
    have hbody : markShareAsPaidTxBody shareId db = Except.ok (db1, []) := by
      rw [markShareAsPaidTxBody, hupd]
      dsimp only
      rw [hall]
      rw [if_neg (by simp)]
    have hroute : markShareAsPaidRoute shareId db
        = { status := 200, db := db1, trace := [TxAction.commit], error := none } := by
      rw [markShareAsPaidRoute, hbody]
      rfl
    rw [hroute]
    refine ⟨rfl, ?_, ?_, ?_, ?_, ?_, rfl⟩
    · rw [hdb1]
    · rw [hdb1]
    · rw [hdb1]
    · rw [hdb1]
    · rw [hdb1]

theorem BillShare.setPaid_self {s : BillShare} (h : s.paid = true) :
    ({ s with paid := true } : BillShare) = s := by
  cases s
  simp_all

theorem Order.setStatus_self {o : Order} {st : String} (h : o.status = st) :
    ({ o with status := st } : Order) = o := by
  cases o
  simp_all

theorem Table.setTableStatus_self {t : Table} {st : String} (h : t.status = st) :
    ({ t with status := st } : Table) = t := by
  cases t
  simp_all

/-- C10: calling markShareAsPaid again on a share of a payment whose shares
are already all paid succeeds, leaves the store unchanged, and re-emits the
split_bill_completed broadcast. -/
theorem c10_markShareAsPaid_idempotent (db : DB) (shareId : Nat) (sh : BillShare) (pay : Payment)
    (hwf : db.WF)
    (hfind : db.billShares.find? (fun s => s.id == shareId) = some sh)
    (hpaid : ∀ s ∈ db.billShares, s.paymentId = sh.paymentId → s.paid = true)
    (hpay : db.payments.find? (fun p => p.id == sh.paymentId) = some pay)
    (horder : ∀ o ∈ db.orders, o.id = pay.orderId → o.status = "completed")
    (htable : ∀ t ∈ db.tables, t.id = pay.tableId → t.status = "free") :
    (markShareAsPaidRoute shareId db).status = 200 ∧
    (markShareAsPaidRoute shareId db).db = db ∧
    (markShareAsPaidRoute shareId db).events
      = [Event.split_bill_completed sh.paymentId pay.orderId pay.tableId] := by
  have hshid : sh.id = shareId := by simpa using List.find?_some hfind
  have hshmem : sh ∈ db.billShares := List.mem_of_find?_eq_some hfind
  have hshpaid : sh.paid = true := hpaid sh hshmem rfl
  obtain ⟨sh2, hsh2⟩ : ∃ x : BillShare, x = { sh with paid := true } := ⟨_, rfl⟩
  have hsh2sh : sh2 = sh := by
    rw [hsh2]
    exact BillShare.setPaid_self hshpaid
  have hshares_id : db.billShares.map (fun t => if t.id == shareId then { t with paid := true } else t) = db.billShares := by
    apply map_update_id
    intro t htmem htid
    have hteq : t = sh := by
      apply List.inj_on_of_nodup_map hwf.2.2.2.2.2.1 htmem hshmem
      rw [hshid]
      simpa using htid
    rw [hteq]
    exact BillShare.setPaid_self hshpaid
  have hupd : updateBillSharePaid shareId db = some (sh2, db) := by
    rw [updateBillSharePaid_eq hfind, hsh2]
    rw [hshares_id]
  have hall : (db.billShares.filter (fun s => s.paymentId == sh2.paymentId)).all
      (fun s => s.paid) = true := by
    rw [List.all_eq_true]
    intro s hsmem
    rw [List.mem_filter] at hsmem
    obtain ⟨hmem, hpidmatch⟩ := hsmem
    apply hpaid s hmem
    rw [hsh2sh] at hpidmatch
    simpa using hpidmatch
  have hpay1 : db.payments.find? (fun p => p.id == sh2.paymentId) = some pay := by
    rw [hsh2sh]
    exact hpay
  have horders_id : db.orders.map (fun o => if o.id == pay.orderId then { o with status := "completed" } else o) = db.orders := by
    apply map_update_id
    intro o homem hoid
    exact Order.setStatus_self (horder o homem (by simpa using hoid))
  have htables_id : db.tables.map (fun t => if t.id == pay.tableId then { t with status := "free" } else t) = db.tables := by
    apply map_update_id
    intro t htmem htid
    exact Table.setTableStatus_self (htable t htmem (by simpa using htid))
  have hbody : markShareAsPaidTxBody shareId db
      = Except.ok (db, [Event.split_bill_completed sh2.paymentId pay.orderId pay.tableId]) := by
    rw [markShareAsPaidTxBody, hupd]
    dsimp only
    rw [hall]
    rw [if_pos rfl, hpay1]
    dsimp only
    rw [horders_id]
    rw [htables_id]
  have hroute : markShareAsPaidRoute shareId db
      = { status := 200, db := db,
          trace := [TxAction.emit (Event.split_bill_completed sh2.paymentId pay.orderId pay.tableId),
                    TxAction.commit],
          error := none } := by
    rw [markShareAsPaidRoute, hbody]
    rfl
  rw [hroute, hsh2sh]
  exact ⟨rfl, rfl, rfl⟩

/-- Store used to exercise the split-bill settlement routes: one occupied
table, one confirmed order of total 30, its payment row and a single unpaid
share anchored to that payment. -/
def exPayDB : DB :=
  { tables := [{ id := 1, number := 5, status := "occupied" }],
    menuItems := [],
    orders := [{ id := 2, tableId := 1, status := "confirmed", total := 30 }],
    orderItems := [],
    payments := [{ id := 3, orderId := 2, tableId := 1, amount := 30, method := "cash" }],
    billShares := [{ id := 4, paymentId := 3, customerName := "Alice", amount := 30, paid := false }],
    nextId := 5 }

/-- C4: the source calls broadcast inside the transaction callback of
markShareAsPaid, so on the completion path the split_bill_completed emission
is sequenced strictly before the commit of the triggering transaction,
contradicting the spec rule (and the inline source comment) that the
broadcast happens only after the commit succeeds. -/
theorem c4_broadcast_inside_transaction :
    (markShareAsPaidRoute 4 exPayDB).trace
      = [TxAction.emit (Event.split_bill_completed 3 2 1), TxAction.commit] ∧
    (markShareAsPaidRoute 4 exPayDB).status = 200 := by
  constructor <;> rfl

theorem updateOrderItemStatus_eq_of_found {db : DB} {itemId : Nat} {item : OrderItem} {st : String}
    (hfind : db.orderItems.find? (fun i => i.id == itemId) = some item)
    (hst : orderItemStatusEnum.contains st = true) :
    updateOrderItemStatus itemId st db
      = (some { item with status := st },
         { db with orderItems := db.orderItems.map (fun x => if x.id == itemId then { x with status := st } else x) }) := by
  rw [updateOrderItemStatus, if_pos hst, hfind]

theorem updateOrderTotal_orderItems (a : Nat) (b : ℚ) (c : DB) :
    (updateOrderTotal a b c).orderItems = c.orderItems := rfl

/-- C5: cancelOrderItem fails with the InvalidState error for items in
status preparing, almost_ready, ready or delivered, succeeds for items in
status queued or pending (setting the item to cancelled), and fails with the
same InvalidState error for an already-cancelled item. -/
theorem c5_cancelOrderItem_guard (db : DB) (orderId itemId : Nat) (item : OrderItem)
    (hfind : getOrderItemById itemId db = some item) :
    (item.status = "preparing" ∨ item.status = "almost_ready" ∨
        item.status = "ready" ∨ item.status = "delivered" →
      (cancelOrderItemRoute orderId itemId db).status = 400 ∧
      (cancelOrderItemRoute orderId itemId db).error = some Err.cannotCancelPrepared ∧
      (cancelOrderItemRoute orderId itemId db).db = db) ∧
    (item.status = "queued" ∨ item.status = "pending" →
      (cancelOrderItemRoute orderId itemId db).status = 200 ∧
      (∀ i ∈ (cancelOrderItemRoute orderId itemId db).db.orderItems,
        i.id = itemId → i.status = "cancelled")) ∧
    (item.status = "cancelled" →
      (cancelOrderItemRoute orderId itemId db).status = 400 ∧
      (cancelOrderItemRoute orderId itemId db).error = some Err.cannotCancelPrepared) := by
  have hfind2 : db.orderItems.find? (fun i => i.id == itemId) = some item := hfind
  have hguard : (!(["queued", "pending"].contains item.status)) = true →
      cancelOrderItemRoute orderId itemId db
        = { status := 400, db := db, events := [], error := some Err.cannotCancelPrepared } := by
    intro hblocked
    rw [cancelOrderItemRoute, hfind]
    dsimp only
    rw [if_pos hblocked]
  have hsuccess : (!(["queued", "pending"].contains item.status)) = false →
      (cancelOrderItemRoute orderId itemId db).status = 200 ∧
      (∀ i ∈ (cancelOrderItemRoute orderId itemId db).db.orderItems,
        i.id = itemId → i.status = "cancelled") := by
    intro hok2
    have hcan : orderItemStatusEnum.contains (r"cancelled") = true := by decide
    obtain ⟨db1, hdb1⟩ : ∃ x : DB,
        x = { db with orderItems := db.orderItems.map (fun y => if y.id == itemId then { y with status := "cancelled" } else y) } := ⟨_, rfl⟩
    have hupd : updateOrderItemStatus itemId (r"cancelled") db
        = (some { item with status := "cancelled" }, db1) := by
      rw [hdb1]
      exact updateOrderItemStatus_eq_of_found hfind2 hcan
    have hitems : ∀ dbx : DB, dbx.orderItems = db1.orderItems →
        ∀ i ∈ dbx.orderItems, i.id = itemId → i.status = "cancelled" := by
      intro dbx hdbx i hmem hid
      rw [hdbx, hdb1] at hmem
      simp only [List.mem_map] at hmem
      obtain ⟨x, _, hxeq⟩ := hmem
      by_cases hxid : (x.id == itemId) = true
      · rw [if_pos hxid] at hxeq
        rw [← hxeq]
      · rw [if_neg hxid] at hxeq
        subst hxeq
        exact absurd (by simpa using hid) (by simpa using hxid)
    rw [cancelOrderItemRoute, hfind]
    dsimp only
    rw [if_neg (by rw [hok2]; simp)]
    rw [hupd]
    dsimp only
    cases hord : getOrderById orderId db1 with
    | none =>
      exact ⟨rfl, hitems db1 rfl⟩
    | some order =>
      dsimp only
      refine ⟨rfl, hitems _ ?_⟩
      rw [updateOrderTotal_orderItems]
  refine ⟨?_, ?_, ?_⟩
  · intro hcase
    rcases hcase with hst | hst | hst | hst <;>
      (rw [hguard (by rw [hst]; decide)]; exact ⟨rfl, rfl, rfl⟩)
  · intro hcase
    rcases hcase with hst | hst <;> exact hsuccess (by rw [hst]; decide)
  · intro hst
    rw [hguard (by rw [hst]; decide)]
    exact ⟨rfl, rfl⟩

/-- C8 counterexample: on a store with no bill share of id 99, the source
maps the NotFound failure of markShareAsPaid to HTTP 500 (its catch-all),
and it maps a missing order in createSplitBill to HTTP 400, not to the 404
required by the claim. -/
theorem c8_counterexample :
    (markShareAsPaidRoute 99 exPayDB).status = 500 ∧
    (markShareAsPaidRoute 99 exPayDB).error = some Err.shareNotFound ∧
    ¬ (markShareAsPaidRoute 99 exPayDB).status = 404 ∧
    (createSplitBillRoute 99 1 (r"cash") [{ customerName := "Alice", amount := some 30 }] exPayDB).status = 400 ∧
    (createSplitBillRoute 99 1 (r"cash") [{ customerName := "Alice", amount := some 30 }] exPayDB).error = some Err.orderNotFound ∧
    ¬ (createSplitBillRoute 99 1 (r"cash") [{ customerName := "Alice", amount := some 30 }] exPayDB).status = 404 := by
  refine ⟨rfl, rfl, by decide, rfl, rfl, by decide⟩

/-- C8 amended: markShareAsPaid on a missing share fails with the
shareNotFound error mapped by the route to HTTP 500 without touching the
store, and createSplitBill on a missing order fails with the orderNotFound
error mapped to HTTP 400 without touching the store. -/
theorem c8_error_mapping_amended :
    (∀ (db : DB) (shareId : Nat), db.billShares.find? (fun s => s.id == shareId) = none →
      (markShareAsPaidRoute shareId db).status = 500 ∧
      (markShareAsPaidRoute shareId db).error = some Err.shareNotFound ∧
      (markShareAsPaidRoute shareId db).db = db) ∧
    (∀ (db : DB) (orderId tableId : Nat) (method : String) (shares : List ShareInput),
      shares ≠ [] → db.orders.find? (fun o => o.id == orderId) = none →
      (createSplitBillRoute orderId tableId method shares db).status = 400 ∧
      (createSplitBillRoute orderId tableId method shares db).error = some Err.orderNotFound ∧
      (createSplitBillRoute orderId tableId method shares db).db = db) := by
  constructor
  · intro db shareId hfind
    have hbody : markShareAsPaidTxBody shareId db = Except.error Err.shareNotFound := by
      rw [markShareAsPaidTxBody, updateBillSharePaid, hfind]
    rw [markShareAsPaidRoute, hbody]
    exact ⟨rfl, rfl, rfl⟩
  · intro db orderId tableId method shares hne hfind
    have hbody : splitBillTxBody orderId tableId method shares db
        = Except.error Err.orderNotFound := by
      rw [splitBillTxBody, hfind]
    rw [createSplitBillRoute, if_neg (by simpa [List.isEmpty_iff] using hne), hbody]
    exact ⟨rfl, rfl, rfl⟩

theorem c8_witness :
    (markShareAsPaidRoute 99 exPayDB).status = 500 ∧
    (createSplitBillRoute 99 1 (r"cash") [{ customerName := "Alice", amount := some 30 }] exPayDB).status = 400 := by
  have h := c8_error_mapping_amended
  exact ⟨(h.1 exPayDB 99 (by decide)).1,
    (h.2 exPayDB 99 1 (r"cash") [{ customerName := "Alice", amount := some 30 }] (by decide) (by decide)).1⟩

theorem toFixed2_zero : toFixed2 0 = 0 := toFixed2_cents isCents_zero

theorem Order.setTotal_self {o : Order} {q : ℚ} (h : o.total = q) :
    ({ o with total := q } : Order) = o := by
  cases o
  simp_all

theorem updateTableStatus_orders (a : Nat) (b : String) (c : DB) :
    ((updateTableStatus a b c).2).orders = c.orders := by
  rw [updateTableStatus]
  cases c.tables.find? (fun x => x.id == a) <;> rfl

theorem updateTableStatus_orderItems (a : Nat) (b : String) (c : DB) :
    ((updateTableStatus a b c).2).orderItems = c.orderItems := by
  rw [updateTableStatus]
  cases c.tables.find? (fun x => x.id == a) <;> rfl

theorem updateTableStatus_status (a : Nat) (st : String) (c : DB) :
    ∀ t ∈ ((updateTableStatus a st c).2).tables, t.id = a → t.status = st := by
  intro t hmem hid
  rw [updateTableStatus] at hmem
  cases hfind : c.tables.find? (fun x => x.id == a) with
  | none =>
    rw [hfind] at hmem
    have := List.find?_eq_none.mp hfind t hmem
    exact absurd (by simpa using hid) this
  | some t0 =>
    rw [hfind] at hmem
    simp only [List.mem_map] at hmem
    obtain ⟨x, _, hxeq⟩ := hmem
    by_cases hxid : (x.id == a) = true
    · rw [if_pos hxid] at hxeq
      rw [← hxeq]
    · rw [if_neg hxid] at hxeq
      subst hxeq
      exact absurd (by simpa using hid) (by simpa using hxid)

theorem createOrderLoop_none (oid : Nat) : ∀ (items : List OrderItemInput) (t : ℚ) (db : DB),
    (∀ it ∈ items, getMenuItemById it.menuItemId db = none) →
    createOrderLoop oid items (t, db) = (t, db) := by
  intro items
  induction items with
  | nil =>
    intro t db _
    rfl
  | cons item rest ih =>
    intro t db hnone
    have hstep : createOrderLoop oid (item :: rest) (t, db) = createOrderLoop oid rest (t, db) := by
      simp [createOrderLoop, List.foldl_cons, hnone item (List.mem_cons_self _ _)]
    rw [hstep]
    exact ih t db fun it hit => hnone it (List.mem_cons_of_mem _ hit)

theorem updateOrderTotal_orders (a : Nat) (b : ℚ) (c : DB) :
    (updateOrderTotal a b c).orders
      = c.orders.map (fun o => if o.id == a then { o with total := b } else o) := rfl

/-- C9: createOrder with an empty item list, or with items that all reference
missing menu items, still succeeds: it persists a pending order of total 0
with no items, flips the table to occupied, broadcasts order_created, and
does not reject the request. -/
theorem c9_createOrder_empty (db : DB) (tableId : Nat) (items : List OrderItemInput)
    (hwf : db.WF)
    (hnone : ∀ it ∈ items, getMenuItemById it.menuItemId db = none) :
    (createOrderRoute tableId items db).status = 201 ∧
    (createOrderRoute tableId items db).db.orderItems = db.orderItems ∧
    (∃ o ∈ (createOrderRoute tableId items db).db.orders,
      o.id = db.nextId ∧ o.status = "pending" ∧ o.tableId = tableId ∧ o.total = 0) ∧
    (∀ t ∈ (createOrderRoute tableId items db).db.tables, t.id = tableId → t.status = "occupied") ∧
    (∀ c, getOrderById db.nextId (createOrderRoute tableId items db).db = some c →
      c.orderItems = []) ∧
    (createOrderRoute tableId items db).events
      = [Event.order_created (getOrderById db.nextId (createOrderRoute tableId items db).db)] := by
  have hordersLt := hwf.2.2.2.2.2.2.1
  have hitemsOrderLt := hwf.2.2.2.2.2.2.2.2.1
  obtain ⟨o0, ho0⟩ : ∃ x : Order,
      x = { id := db.nextId, tableId := tableId, status := "pending", total := 0 } := ⟨_, rfl⟩
  obtain ⟨db1, hdb1⟩ : ∃ x : DB,
      x = { db with orders := db.orders ++ [o0], nextId := db.nextId + 1 } := ⟨_, rfl⟩
  have ho0id : o0.id = db.nextId := by rw [ho0]
  have ho0total : o0.total = 0 := by rw [ho0]
  have hmade : createOrder tableId (r"pending") 0 db = (o0, db1) := by
    rw [createOrder, hdb1, ho0]
  have hb1menu : db1.menuItems = db.menuItems := by rw [hdb1]
  have hb1orders : db1.orders = db.orders ++ [o0] := by rw [hdb1]
  have hb1items : db1.orderItems = db.orderItems := by rw [hdb1]
  have hloop : createOrderLoop o0.id items (0, db1) = (0, db1) := by
    apply createOrderLoop_none
    intro it hit
    rw [getMenuItemById_eq_of_menu hb1menu]
    exact hnone it hit
  obtain ⟨db2, hdb2⟩ : ∃ x : DB, x = updateOrderTotal o0.id (toFixed2 0) db1 := ⟨_, rfl⟩
  obtain ⟨db3, hdb3⟩ : ∃ x : DB, x = (updateTableStatus tableId (r"occupied") db2).2 := ⟨_, rfl⟩
  have hroute : createOrderRoute tableId items db
      = { status := 201, db := db3,
          events := [Event.order_created (getOrderById o0.id db3)], error := none } := by
    rw [createOrderRoute]
    rw [hmade]
    dsimp only
    rw [hloop]
    rw [← hdb2, ← hdb3]
  have horders2 : db2.orders = db.orders ++ [o0] := by
    rw [hdb2, updateOrderTotal_orders, hb1orders, List.map_append]
    have hold : (db.orders.map (fun o => if o.id == o0.id then { o with total := toFixed2 0 } else o)) = db.orders := by
      apply map_update_id
      intro x hxmem hxid
      have hlt := hordersLt x hxmem
      rw [ho0id] at hxid
      exact absurd (by simpa using hxid) (Nat.ne_of_lt hlt)
    rw [hold]
    simp only [List.map_cons, List.map_nil]
    rw [if_pos (by simp), toFixed2_zero, Order.setTotal_self ho0total]
  have hitems2 : db2.orderItems = db.orderItems := by
    rw [hdb2, updateOrderTotal_orderItems, hb1items]
  have hitems3 : db3.orderItems = db.orderItems := by
    rw [hdb3, updateTableStatus_orderItems, hitems2]
  have horders3 : db3.orders = db.orders ++ [o0] := by
    rw [hdb3, updateTableStatus_orders, horders2]
  rw [hroute]
  refine ⟨rfl, hitems3, ?_, ?_, ?_, ?_⟩
  · refine ⟨o0, ?_, ho0id, by rw [ho0], by rw [ho0], ho0total⟩
    rw [horders3]
    exact List.mem_append_right _ (by simp)
  · intro t hmem hid
    rw [hdb3] at hmem
    exact updateTableStatus_status tableId (r"occupied") db2 t hmem hid
  · intro c hc
    rw [getOrderById] at hc
    cases hfindo : db3.orders.find? (fun o => o.id == db.nextId) with
    | none =>
      rw [hfindo] at hc
      cases hc
    | some o =>
      rw [hfindo] at hc
      have hoid : o.id = db.nextId := by simpa using List.find?_some hfindo
      simp only [Option.map_some', Option.some.injEq] at hc
      rw [← hc]
      dsimp only
      rw [hitems3, hoid, List.filter_eq_nil_iff]
      intro i himem
      have := hitemsOrderLt i himem
      simp only [beq_iff_eq]
      exact Nat.ne_of_lt this
  · rw [ho0id]

/-- C6: createOrder snapshots the current menu price onto each created item
(status queued), silently skips requested items whose menu item does not
resolve, persists the order with status pending and total equal to the sum
of quantity times snapshot price over the non-skipped items, and flips the
table to occupied. -/
theorem c6_createOrder_spec (db : DB) (tableId : Nat) (items : List OrderItemInput)
    (hwf : db.WF) (hcents : ∀ m ∈ db.menuItems, IsCents m.price) :
    (createOrderRoute tableId items db).status = 201 ∧
    (∃ newItems : List OrderItem,
      (createOrderRoute tableId items db).db.orderItems = db.orderItems ++ newItems ∧
      newItems.length = (items.filter (fun it => (getMenuItemById it.menuItemId db).isSome)).length ∧
      (∀ i ∈ newItems, i.orderId = db.nextId ∧ i.status = "queued" ∧
        (∃ it ∈ items, i.menuItemId = it.menuItemId ∧ i.quantity = it.quantity ∧ i.notes = it.notes) ∧
        (∃ m, getMenuItemById i.menuItemId db = some m ∧ i.price = m.price)) ∧
      (∃ o ∈ (createOrderRoute tableId items db).db.orders,
        o.id = db.nextId ∧ o.status = "pending" ∧ o.tableId = tableId ∧
        o.total = (items.filterMap (requestedAmount db)).sum)) ∧
    (∀ t ∈ (createOrderRoute tableId items db).db.tables, t.id = tableId → t.status = "occupied") := by
  have hordersLt := hwf.2.2.2.2.2.2.1
  obtain ⟨o0, ho0⟩ : ∃ x : Order,
      x = { id := db.nextId, tableId := tableId, status := "pending", total := 0 } := ⟨_, rfl⟩
  obtain ⟨db1, hdb1⟩ : ∃ x : DB,
      x = { db with orders := db.orders ++ [o0], nextId := db.nextId + 1 } := ⟨_, rfl⟩
  have ho0id : o0.id = db.nextId := by rw [ho0]
  have hmade : createOrder tableId (r"pending") 0 db = (o0, db1) := by
    rw [createOrder, hdb1, ho0]
  have hb1menu : db1.menuItems = db.menuItems := by rw [hdb1]
  have hb1orders : db1.orders = db.orders ++ [o0] := by rw [hdb1]
  have hb1items : db1.orderItems = db.orderItems := by rw [hdb1]
  have hlookup : ∀ k, getMenuItemById k db1 = getMenuItemById k db :=
    fun k => getMenuItemById_eq_of_menu hb1menu k
  have hreq1 : ∀ it ∈ items, requestedAmount db1 it = requestedAmount db it := by
    intro it _
    unfold requestedAmount
    rw [hlookup]
  obtain ⟨newItems, h1, h2, h3, h4, h5, h6, h7, h8, h9, h10, h11⟩ :=
    createOrderLoop_spec o0.id items 0 db1
  obtain ⟨db2, hdb2⟩ : ∃ x : DB,
      x = updateOrderTotal o0.id (toFixed2 (createOrderLoop o0.id items (0, db1)).1)
            (createOrderLoop o0.id items (0, db1)).2 := ⟨_, rfl⟩
  obtain ⟨db3, hdb3⟩ : ∃ x : DB, x = (updateTableStatus tableId (r"occupied") db2).2 := ⟨_, rfl⟩
  have hroute : createOrderRoute tableId items db
      = { status := 201, db := db3,
          events := [Event.order_created (getOrderById o0.id db3)], error := none } := by
    rw [createOrderRoute]
    rw [hmade]
    dsimp only
    rw [← hdb2, ← hdb3]
  have hsum : (createOrderLoop o0.id items (0, db1)).1
      = (items.filterMap (requestedAmount db)).sum := by
    rw [h8, List.filterMap_congr hreq1]
    rw [zero_add]
  have hcentsum : IsCents ((items.filterMap (requestedAmount db)).sum) := by
    apply isCents_sum
    intro q hq
    rw [List.mem_filterMap] at hq
    obtain ⟨it, _, hreq⟩ := hq
    rw [requestedAmount, Option.map_eq_some'] at hreq
    obtain ⟨m, hm, hqeq⟩ := hreq
    rw [← hqeq]
    exact (hcents m (List.mem_of_find?_eq_some hm)).mul_nat it.quantity
  have htofix : toFixed2 (createOrderLoop o0.id items (0, db1)).1
      = (items.filterMap (requestedAmount db)).sum := by
    rw [hsum]
    exact toFixed2_cents hcentsum
  obtain ⟨o2, ho2⟩ : ∃ x : Order,
      x = { o0 with total := toFixed2 (createOrderLoop o0.id items (0, db1)).1 } := ⟨_, rfl⟩
  have horders2 : db2.orders = db.orders ++ [o2] := by
    rw [hdb2, updateOrderTotal_orders, h2, hb1orders, List.map_append]
    have hold : (db.orders.map (fun o => if o.id == o0.id then { o with total := toFixed2 (createOrderLoop o0.id items (0, db1)).1 } else o)) = db.orders := by
      apply map_update_id
      intro x hxmem hxid
      have hlt := hordersLt x hxmem
      rw [ho0id] at hxid
      exact absurd (by simpa using hxid) (Nat.ne_of_lt hlt)
    rw [hold]
    simp only [List.map_cons, List.map_nil]
    rw [if_pos (by simp), ← ho2]
  have hitems3 : db3.orderItems = db.orderItems ++ newItems := by
    rw [hdb3, updateTableStatus_orderItems, hdb2, updateOrderTotal_orderItems, h1, hb1items]
  have horders3 : db3.orders = db.orders ++ [o2] := by
    rw [hdb3, updateTableStatus_orders, horders2]
  rw [hroute]
  refine ⟨rfl, ⟨newItems, hitems3, ?_, ?_, ?_⟩, ?_⟩
  · rw [h10]
    congr 1
    apply List.filter_congr
    intro a _
    rw [hlookup]
  · intro i hi
    obtain ⟨hio, his, hex, m, hm, hp⟩ := h11 i hi
    rw [hlookup] at hm
    exact ⟨by rw [hio, ho0id], his, hex, m, hm, hp⟩
  · refine ⟨o2, ?_, ?_, ?_, ?_, ?_⟩
    · rw [horders3]
      exact List.mem_append_right _ (by simp)
    · rw [ho2, ho0]
    · rw [ho2, ho0]
    · rw [ho2, ho0]
    · rw [ho2]
      dsimp only
      exact htofix
  · intro t hmem hid
    rw [hdb3] at hmem
    exact updateTableStatus_status tableId (r"occupied") db2 t hmem hid

/-- C2: createSplitBill rejects without persisting anything when the share
list is empty, when any share has a blank trimmed name, when any share
amount is non-numeric or non-positive, when the share sum differs from the
authoritative order total by more than 0.01, or when the order is not
confirmed; on acceptance it persists exactly one payment whose amount equals
the order total and one unpaid bill share per submitted share. -/
theorem c2_createSplitBill_spec (db : DB) (orderId tableId : Nat) (method : String)
    (shares : List ShareInput) :
    (shares = [] →
      (createSplitBillRoute orderId tableId method shares db).status = 400 ∧
      (createSplitBillRoute orderId tableId method shares db).db = db) ∧
    ((∃ s ∈ shares, strTrim s.customerName = "") →
      (createSplitBillRoute orderId tableId method shares db).status = 400 ∧
      (createSplitBillRoute orderId tableId method shares db).db = db) ∧
    ((∃ s ∈ shares, s.amount = none ∨ ∃ a, s.amount = some a ∧ a ≤ 0) →
      (createSplitBillRoute orderId tableId method shares db).status = 400 ∧
      (createSplitBillRoute orderId tableId method shares db).db = db) ∧
    (∀ order, db.orders.find? (fun o => o.id == orderId) = some order →
      |inputSum shares - order.total| > 1 / 100 →
      (createSplitBillRoute orderId tableId method shares db).status = 400 ∧
      (createSplitBillRoute orderId tableId method shares db).db = db) ∧
    (∀ order, db.orders.find? (fun o => o.id == orderId) = some order →
      ¬ order.status = "confirmed" →
      (createSplitBillRoute orderId tableId method shares db).status = 400 ∧
      (createSplitBillRoute orderId tableId method shares db).db = db) ∧
    (∀ order, db.orders.find? (fun o => o.id == orderId) = some order →
      order.status = "confirmed" →
      (∀ s ∈ shares, ShareOK s) →
      shares ≠ [] →
      |inputSum shares - order.total| ≤ 1 / 100 →
      paymentMethodEnum.contains method = true →
      db.payments.any (fun x => x.orderId == orderId) = false →
      (createSplitBillRoute orderId tableId method shares db).status = 201 ∧
      (∃ p : Payment, (createSplitBillRoute orderId tableId method shares db).db.payments
          = db.payments ++ [p] ∧ p.amount = order.total) ∧
      (∃ ns : List BillShare, (createSplitBillRoute orderId tableId method shares db).db.billShares
          = db.billShares ++ ns ∧ ns.length = shares.length ∧ ∀ b ∈ ns, b.paid = false) ∧
      (createSplitBillRoute orderId tableId method shares db).db.orders = db.orders ∧
      (createSplitBillRoute orderId tableId method shares db).db.orderItems = db.orderItems ∧
      (createSplitBillRoute orderId tableId method shares db).db.tables = db.tables) := by
  have hreject : ∀ e, splitBillTxBody orderId tableId method shares db = Except.error e →
      (createSplitBillRoute orderId tableId method shares db).status = 400 ∧
      (createSplitBillRoute orderId tableId method shares db).db = db := by
    intro e he
    rw [createSplitBillRoute]
    by_cases hemp : shares.isEmpty = true
    · rw [if_pos hemp]
      exact ⟨rfl, rfl⟩
    · rw [if_neg hemp, he]
      exact ⟨rfl, rfl⟩
  have hnotok : (∀ p ns db1, ¬ splitBillTxBody orderId tableId method shares db
        = Except.ok (p, ns, db1)) →
      (createSplitBillRoute orderId tableId method shares db).status = 400 ∧
      (createSplitBillRoute orderId tableId method shares db).db = db := by
    intro hno
    cases hb : splitBillTxBody orderId tableId method shares db with
    | ok r => exact absurd (by rw [hb]) (hno r.1 r.2.1 r.2.2)
    | error e => exact hreject e hb
  refine ⟨?_, ?_, ?_, ?_, ?_, ?_⟩
  · intro hemp
    rw [createSplitBillRoute, if_pos (by rw [hemp]; rfl)]
    exact ⟨rfl, rfl⟩
  · intro hblank
    obtain ⟨s0, hs0mem, hs0⟩ := hblank
    apply hnotok
    intro p ns db1 hok
    obtain ⟨_, _, _, hvalid, _⟩ := splitBillTxBody_ok hok
    exact absurd hs0 (hvalid s0 hs0mem).1
  · intro hbad
    obtain ⟨s0, hs0mem, hs0⟩ := hbad
    apply hnotok
    intro p ns db1 hok
    obtain ⟨_, _, _, hvalid, _⟩ := splitBillTxBody_ok hok
    obtain ⟨_, a, ha, hapos⟩ := hvalid s0 hs0mem
    rcases hs0 with hnonenone | ⟨a2, ha2, ha2le⟩
    · rw [hnonenone] at ha
      cases ha
    · rw [ha2] at ha
      cases ha
      exact absurd hapos (not_lt.mpr ha2le)
  · intro order hfind htol
    apply hnotok
    intro p ns db1 hok
    obtain ⟨order2, hfind2, _, _, htol2, _⟩ := splitBillTxBody_ok hok
    rw [hfind] at hfind2
    cases hfind2
    exact absurd htol (not_lt.mpr htol2)
  · intro order hfind hconf
    apply hnotok
    intro p ns db1 hok
    obtain ⟨order2, hfind2, hconf2, _⟩ := splitBillTxBody_ok hok
    rw [hfind] at hfind2
    cases hfind2
    exact absurd hconf2 hconf
  · intro order hfind hconf hvalid hne htol hm hd
    obtain ⟨r0, hok⟩ := splitBillTxBody_accepts hfind hconf hvalid htol hm hd
    have hok2 : splitBillTxBody orderId tableId method shares db
        = Except.ok (r0.1, r0.2.1, r0.2.2) := by rw [hok]
    obtain ⟨order2, hfind2, _, _, _, hamt, hpays, hshares2, hlen, hflags, hords,
      hitems, htabs, _⟩ := splitBillTxBody_ok hok2
    rw [hfind] at hfind2
    cases hfind2
    have hroute : createSplitBillRoute orderId tableId method shares db
        = { status := 201, db := r0.2.2, events := [], error := none } := by
      rw [createSplitBillRoute, if_neg (by simpa [List.isEmpty_iff] using hne), hok]
    rw [hroute]
    refine ⟨rfl, ⟨r0.1, hpays, hamt⟩, ⟨r0.2.1, hshares2, hlen, fun b hb => (hflags b hb).1⟩,
      hords, hitems, htabs⟩

/-- Store with a confirmed order of total 30 that has no payment yet, used to
exercise a successful split-bill creation. -/
def exSplitDB : DB :=
  { tables := [{ id := 1, number := 5, status := "occupied" }],
    menuItems := [],
    orders := [{ id := 2, tableId := 1, status := "confirmed", total := 30 }],
    orderItems := [],
    payments := [],
    billShares := [],
    nextId := 3 }

/-- The two-way split of the order total 30 submitted in the examples. -/
def exShares : List ShareInput :=
  [{ customerName := "Alice", amount := some 15 }, { customerName := "Bob", amount := some 15 }]

/-- C7 counterexample: a successful createSplitBill emits no broadcast at
all, refuting the claim that every successful mutating operation emits
exactly one broadcast. -/
theorem c7_counterexample :
    (createSplitBillRoute 2 1 (r"cash") exShares exSplitDB).status = 201 ∧
    (createSplitBillRoute 2 1 (r"cash") exShares exSplitDB).events = [] := by
  have hfind : exSplitDB.orders.find? (fun o => o.id == 2)
      = some { id := 2, tableId := 1, status := "confirmed", total := 30 } := by decide
  have hvalid : ∀ s ∈ exShares, ShareOK s := by
    intro s hs
    rw [exShares] at hs
    rcases List.mem_cons.mp hs with hEq | hMem
    · subst hEq
      exact ⟨by decide, 15, rfl, by decide⟩
    · rcases List.mem_cons.mp hMem with hEq | hnil
      · subst hEq
        exact ⟨by decide, 15, rfl, by decide⟩
      · cases hnil
  have htol : |inputSum exShares - ({ id := 2, tableId := 1, status := "confirmed", total := 30 } : Order).total| ≤ 1 / 100 := by
    simp only [inputSum, exShares, List.filterMap_cons, List.filterMap_nil]
    norm_num
  obtain ⟨r0, hok⟩ := @splitBillTxBody_accepts 2 1 (r"cash") exShares exSplitDB
    { id := 2, tableId := 1, status := "confirmed", total := 30 }
    hfind rfl hvalid htol (by decide) (by decide)
  rw [createSplitBillRoute, if_neg (by decide), hok]
  exact ⟨rfl, rfl⟩

/-- C7 amended: createOrder and confirmOrder emit exactly one broadcast on
success and none on failure; updateOrderItemStatus emits exactly one
broadcast, plus an additional order_ready exactly when the new status is
ready and every item of the order is ready, delivered or cancelled;
cancelOrderItem on success emits one broadcast when the order resolves and
none otherwise; createSplitBill never broadcasts; markShareAsPaid emits one
broadcast on the completion path and none on the partial path or on
failure; recordPayment emits exactly one broadcast on success and none on
failure. -/
theorem c7_broadcast_amended :
    (∀ (db : DB) (tableId : Nat) (items : List OrderItemInput),
      (createOrderRoute tableId items db).status = 201 ∧
      (∃ x, (createOrderRoute tableId items db).events = [Event.order_created x])) ∧
    (∀ (db : DB) (orderId : Nat),
      ((confirmOrderRoute orderId db).status = 200 →
        ∃ x, (confirmOrderRoute orderId db).events = [Event.order_confirmed x]) ∧
      ((confirmOrderRoute orderId db).status ≠ 200 →
        (confirmOrderRoute orderId db).events = [])) ∧
    (∀ (db : DB) (orderId itemId : Nat) (status : String),
      ((updateOrderItemStatusRoute orderId itemId status db).status ≠ 200 →
        (updateOrderItemStatusRoute orderId itemId status db).events = []) ∧
      ((updateOrderItemStatusRoute orderId itemId status db).status = 200 →
        (∃ i x, (updateOrderItemStatusRoute orderId itemId status db).events
            = [Event.order_item_status_updated i x]) ∨
        (∃ i o, (updateOrderItemStatusRoute orderId itemId status db).events
            = [Event.order_item_status_updated i (some o), Event.order_ready o] ∧
          status = "ready" ∧ allItemsReady o = true))) ∧
    (∀ (db : DB) (orderId itemId : Nat),
      ((cancelOrderItemRoute orderId itemId db).status ≠ 200 →
        (cancelOrderItemRoute orderId itemId db).events = []) ∧
      ((cancelOrderItemRoute orderId itemId db).status = 200 →
        (∃ x, (cancelOrderItemRoute orderId itemId db).events = [Event.order_item_cancelled x]) ∨
        (cancelOrderItemRoute orderId itemId db).events = [])) ∧
    (∀ (db : DB) (orderId tableId : Nat) (method : String) (shares : List ShareInput),
      (createSplitBillRoute orderId tableId method shares db).events = []) ∧
    (∀ (db : DB) (shareId : Nat),
      ((markShareAsPaidRoute shareId db).status ≠ 200 →
        (markShareAsPaidRoute shareId db).events = []) ∧
      ((markShareAsPaidRoute shareId db).status = 200 →
        (∃ a b c, (markShareAsPaidRoute shareId db).events = [Event.split_bill_completed a b c]) ∨
        (markShareAsPaidRoute shareId db).events = [])) ∧
    (∀ (db : DB) (orderId tableId : Nat) (amount : ℚ) (method : String) (isSplitBill : Bool),
      ((recordPaymentRoute orderId tableId amount method isSplitBill db).status ≠ 201 →
        (recordPaymentRoute orderId tableId amount method isSplitBill db).events = []) ∧
      ((recordPaymentRoute orderId tableId amount method isSplitBill db).status = 201 →
        ∃ p, (recordPaymentRoute orderId tableId amount method isSplitBill db).events
          = [Event.payment_processed p orderId tableId isSplitBill])) := by
  refine ⟨?_, ?_, ?_, ?_, ?_, ?_, ?_⟩
  · intro db tableId items
    rw [createOrderRoute]
    exact ⟨rfl, ⟨_, rfl⟩⟩
  · intro db orderId
    rw [confirmOrderRoute]
    cases hu : updateOrderStatus orderId (r"confirmed") db with
    | mk fst snd =>
      cases fst with
      | none =>
        exact ⟨fun h => by simp at h, fun _ => rfl⟩
      | some o =>
        exact ⟨fun _ => ⟨_, rfl⟩, fun h => absurd rfl h⟩
  · intro db orderId itemId status
    rw [updateOrderItemStatusRoute]
    cases hu : updateOrderItemStatus itemId status db with
    | mk fst snd =>
      cases fst with
      | none =>
        exact ⟨fun _ => rfl, fun h => by simp at h⟩
      | some item =>
        dsimp only
        cases ho : getOrderById orderId snd with
        | none =>
          exact ⟨fun h => absurd rfl h, fun _ => Or.inl ⟨item, none, rfl⟩⟩
        | some o =>
          dsimp only
          by_cases hcond : (status == "ready" && allItemsReady o) = true
          · rw [if_pos hcond]
            refine ⟨fun h => absurd rfl h, fun _ => Or.inr ⟨item, o, rfl, ?_, ?_⟩⟩
            · have := (Bool.and_eq_true _ _).mp hcond
              simpa using this.1
            · exact ((Bool.and_eq_true _ _).mp hcond).2
          · rw [if_neg hcond]
            exact ⟨fun h => absurd rfl h, fun _ => Or.inl ⟨item, some o, rfl⟩⟩
  · intro db orderId itemId
    rw [cancelOrderItemRoute]
    cases hfind : getOrderItemById itemId db with
    | none =>
      exact ⟨fun _ => rfl, fun h => by simp at h⟩
    | some item =>
      dsimp only
      by_cases hguard : (!(["queued", "pending"].contains item.status)) = true
      · rw [if_pos hguard]
        exact ⟨fun _ => rfl, fun h => by simp at h⟩
      · rw [if_neg hguard]
        cases ho : getOrderById orderId (updateOrderItemStatus itemId (r"cancelled") db).2 with
        | none =>
          exact ⟨fun h => absurd rfl h, fun _ => Or.inr rfl⟩
        | some order =>
          exact ⟨fun h => absurd rfl h, fun _ => Or.inl ⟨_, rfl⟩⟩
  · intro db orderId tableId method shares
    rw [createSplitBillRoute]
    by_cases hemp : shares.isEmpty = true
    · rw [if_pos hemp]
    · rw [if_neg hemp]
      cases hb : splitBillTxBody orderId tableId method shares db with
      | ok r => rfl
      | error e => rfl
  · intro db shareId
    rw [markShareAsPaidRoute]
    cases hb : markShareAsPaidTxBody shareId db with
    | error e =>
      exact ⟨fun _ => rfl, fun h => by simp at h⟩
    | ok r =>
      refine ⟨fun h => absurd rfl h, fun _ => ?_⟩
      obtain ⟨dbx, evs⟩ := r
      rw [markShareAsPaidTxBody] at hb
      cases hupd : updateBillSharePaid shareId db with
      | none =>
        rw [hupd] at hb
        cases hb
      | some pr =>
        obtain ⟨sh2, db1⟩ := pr
        rw [hupd] at hb
        dsimp only at hb
        by_cases hall : ((db1.billShares.filter (fun s => s.paymentId == sh2.paymentId)).all (fun s => s.paid)) = true
        · rw [if_pos hall] at hb
          cases hpayf : db1.payments.find? (fun p => p.id == sh2.paymentId) with
          | none =>
            rw [hpayf] at hb
            cases hb
          | some payment =>
            rw [hpayf] at hb
            dsimp only at hb
            simp only [Except.ok.injEq, Prod.mk.injEq] at hb
            left
            exact ⟨sh2.paymentId, payment.orderId, payment.tableId, by
              rw [TxRouteResult.events]
              dsimp only
              rw [← hb.2]
              rfl⟩
        · rw [if_neg hall] at hb
          simp only [Except.ok.injEq, Prod.mk.injEq] at hb
          right
          rw [TxRouteResult.events]
          dsimp only
          rw [← hb.2]
          rfl
  · intro db orderId tableId amount method isSplitBill
    rw [recordPaymentRoute]
    cases hc : createPaymentTx orderId tableId amount method db with
    | error e =>
      exact ⟨fun _ => rfl, fun h => by simp at h⟩
    | ok pr =>
      obtain ⟨payment, db1⟩ := pr
      exact ⟨fun h => absurd rfl h, fun _ => ⟨payment, rfl⟩⟩

/-- Every pre-existing order still has a row with its id and its old total:
no total of an already-created order was changed by the step. -/
def TotalsKept (db db2 : DB) : Prop :=
  ∀ o ∈ db.orders, ∃ o2 ∈ db2.orders, o2.id = o.id ∧ o2.total = o.total

theorem totalInvariant_transport {db db2 : DB}
    (hitems : db2.orderItems = db.orderItems)
    (horders : ∀ o2 ∈ db2.orders, ∃ o ∈ db.orders, o2.id = o.id ∧ o2.total = o.total)
    (hinv : TotalInvariant db) : TotalInvariant db2 := by
  intro o2 hmem
  obtain ⟨o, homem, hid, htot⟩ := horders o2 hmem
  rw [htot, hid, hitems]
  exact hinv o homem

theorem exists_pre_of_mem_map_statusSet {l : List Order} {p : Order → Bool} {st : String} :
    ∀ o2 ∈ l.map (fun o => if p o then { o with status := st } else o),
      ∃ o ∈ l, o2.id = o.id ∧ o2.total = o.total := by
  intro o2 hmem
  simp only [List.mem_map] at hmem
  obtain ⟨o, homem, heq⟩ := hmem
  refine ⟨o, homem, ?_⟩
  by_cases hp : p o = true
  · rw [if_pos hp] at heq
    rw [← heq]
    exact ⟨rfl, rfl⟩
  · rw [if_neg hp] at heq
    rw [← heq]
    exact ⟨rfl, rfl⟩

theorem mem_map_statusSet_self {l : List Order} {p : Order → Bool} {st : String} :
    ∀ o ∈ l, ∃ o2 ∈ l.map (fun o => if p o then { o with status := st } else o),
      o2.id = o.id ∧ o2.total = o.total := by
  intro o homem
  refine ⟨(fun o => if p o then { o with status := st } else o) o,
    List.mem_map_of_mem _ homem, ?_⟩
  dsimp only
  by_cases hp : p o = true
  · rw [if_pos hp]
    exact ⟨rfl, rfl⟩
  · rw [if_neg hp]
    exact ⟨rfl, rfl⟩

theorem activeTotal_map_preserve (f : OrderItem → OrderItem) (oid : Nat) :
    ∀ items : List OrderItem,
    (∀ i ∈ items, (f i).orderId = i.orderId ∧ (f i).price = i.price ∧
      (f i).quantity = i.quantity ∧
      (i.orderId = oid → ((f i).status = "cancelled" ↔ i.status = "cancelled"))) →
    activeTotal (items.map f) oid = activeTotal items oid := by
  intro items
  induction items with
  | nil =>
    intro _
    rfl
  | cons i rest ih =>
    intro hf
    obtain ⟨ho, hp, hq, hs⟩ := hf i (List.mem_cons_self _ _)
    have hrest := ih (fun j hj => hf j (List.mem_cons_of_mem _ hj))
    have hcond : ((f i).orderId == oid && !((f i).status == "cancelled"))
        = (i.orderId == oid && !(i.status == "cancelled")) := by
      by_cases hio : i.orderId = oid
      · have hbeq : ((f i).status == "cancelled") = (i.status == "cancelled") := by
          by_cases hc : i.status = "cancelled"
          · rw [hc, (hs hio).mpr hc]
          · have hfc : ¬ (f i).status = "cancelled" := fun hx => hc ((hs hio).mp hx)
            have e1 : ((f i).status == "cancelled") = false := beq_eq_false_iff_ne.mpr hfc
            have e2 : ((i.status == "cancelled")) = false := beq_eq_false_iff_ne.mpr hc
            rw [e1, e2]
        rw [ho, hbeq]
      · have e : (i.orderId == oid) = false := beq_eq_false_iff_ne.mpr hio
        rw [ho, e, Bool.false_and, Bool.false_and]
    simp only [activeTotal, List.map_cons, List.filter_cons]
    rw [hcond]
    by_cases hcv : (i.orderId == oid && !(i.status == "cancelled")) = true
    · rw [if_pos hcv, if_pos hcv]
      have hrest2 : (List.map (fun j => j.price * (j.quantity : ℚ))
            (List.filter (fun j => j.orderId == oid && !(j.status == "cancelled")) (List.map f rest))).sum
          = (List.map (fun j => j.price * (j.quantity : ℚ))
            (List.filter (fun j => j.orderId == oid && !(j.status == "cancelled")) rest)).sum := hrest
      simp only [List.map_cons, List.sum_cons]
      rw [hp, hq, hrest2]
    · rw [if_neg hcv, if_neg hcv]
      exact hrest

theorem updateOrderStatus_orderItems (a : Nat) (b : String) (c : DB) :
    ((updateOrderStatus a b c).2).orderItems = c.orderItems := by
  rw [updateOrderStatus]
  cases c.orders.find? (fun o => o.id == a) <;> rfl

theorem confirmOrderRoute_db_shape (db : DB) (orderId : Nat) :
    (confirmOrderRoute orderId db).db.orderItems = db.orderItems ∧
    ((confirmOrderRoute orderId db).db.orders = db.orders ∨
      (confirmOrderRoute orderId db).db.orders
        = db.orders.map (fun x => if x.id == orderId then { x with status := "confirmed" } else x)) := by
  rw [confirmOrderRoute, updateOrderStatus]
  cases hf : db.orders.find? (fun o => o.id == orderId) with
  | none =>
    dsimp only
    exact ⟨rfl, Or.inl rfl⟩
  | some o =>
    dsimp only
    exact ⟨rfl, Or.inr rfl⟩

theorem updateOrderItemStatusRoute_db_shape (db : DB) (orderId itemId : Nat) (status : String) :
    (updateOrderItemStatusRoute orderId itemId status db).db.orders = db.orders ∧
    ((updateOrderItemStatusRoute orderId itemId status db).db.orderItems = db.orderItems ∨
      (updateOrderItemStatusRoute orderId itemId status db).db.orderItems
        = db.orderItems.map (fun x => if x.id == itemId then { x with status := status } else x)) := by
  rw [updateOrderItemStatusRoute, updateOrderItemStatus]
  by_cases hok : orderItemStatusEnum.contains status = true
  · rw [if_pos hok]
    cases hf : db.orderItems.find? (fun i => i.id == itemId) with
    | none =>
      dsimp only
      exact ⟨rfl, Or.inl rfl⟩
    | some i =>
      dsimp only
      exact ⟨rfl, Or.inr rfl⟩
  · rw [if_neg hok]
    dsimp only
    exact ⟨rfl, Or.inl rfl⟩

theorem markShareAsPaidRoute_db_shape (db : DB) (shareId : Nat) :
    (markShareAsPaidRoute shareId db).db.orderItems = db.orderItems ∧
    ((markShareAsPaidRoute shareId db).db.orders = db.orders ∨
      ∃ k, (markShareAsPaidRoute shareId db).db.orders
        = db.orders.map (fun x => if x.id == k then { x with status := "completed" } else x)) := by
  cases hb : markShareAsPaidTxBody shareId db with
  | error e =>
    rw [markShareAsPaidRoute, hb]
    exact ⟨rfl, Or.inl rfl⟩
  | ok r =>
    obtain ⟨dbx, evs⟩ := r
    have hroute : (markShareAsPaidRoute shareId db).db = dbx := by
      rw [markShareAsPaidRoute, hb]
    rw [hroute]
    rw [markShareAsPaidTxBody, updateBillSharePaid] at hb
    cases hfs : db.billShares.find? (fun s => s.id == shareId) with
    | none =>
      rw [hfs] at hb
      cases hb
    | some s =>
      rw [hfs] at hb
      dsimp only at hb
      by_cases hall : ((db.billShares.map (fun t => if t.id == shareId then { t with paid := true } else t)).filter
          (fun x => x.paymentId == s.paymentId)).all (fun x => x.paid) = true
      · rw [hall] at hb
        rw [if_pos rfl] at hb
        cases hpf : db.payments.find? (fun p => p.id == s.paymentId) with
        | none =>
          rw [hpf] at hb
          cases hb
        | some payment =>
          rw [hpf] at hb
          dsimp only at hb
          simp only [Except.ok.injEq, Prod.mk.injEq] at hb
          obtain ⟨hdbx, _⟩ := hb
          rw [← hdbx]
          exact ⟨rfl, Or.inr ⟨payment.orderId, rfl⟩⟩
      · rw [if_neg (by rw [Bool.not_eq_true] at hall; rw [hall]; decide)] at hb
        simp only [Except.ok.injEq, Prod.mk.injEq] at hb
        obtain ⟨hdbx, _⟩ := hb
        rw [← hdbx]
        exact ⟨rfl, Or.inl rfl⟩

theorem createSplitBillRoute_db_shape (db : DB) (orderId tableId : Nat) (method : String)
    (shares : List ShareInput) :
    (createSplitBillRoute orderId tableId method shares db).db.orders = db.orders ∧
    (createSplitBillRoute orderId tableId method shares db).db.orderItems = db.orderItems := by
  rw [createSplitBillRoute]
  by_cases hemp : shares.isEmpty = true
  · rw [if_pos hemp]
    exact ⟨rfl, rfl⟩
  · rw [if_neg hemp]
    cases hb : splitBillTxBody orderId tableId method shares db with
    | error e =>
      exact ⟨rfl, rfl⟩
    | ok r =>
      obtain ⟨_, _, _, _, _, _, _, _, _, _, hords, hitems, _, _⟩ := splitBillTxBody_ok
        (show splitBillTxBody orderId tableId method shares db
          = Except.ok (r.1, r.2.1, r.2.2) by rw [hb])
      exact ⟨hords, hitems⟩

theorem recordPaymentRoute_db_shape (db : DB) (orderId tableId : Nat) (amount : ℚ)
    (method : String) (isSplitBill : Bool) :
    (recordPaymentRoute orderId tableId amount method isSplitBill db).db.orderItems = db.orderItems ∧
    ((recordPaymentRoute orderId tableId amount method isSplitBill db).db.orders = db.orders ∨
      (recordPaymentRoute orderId tableId amount method isSplitBill db).db.orders
        = db.orders.map (fun x => if x.id == orderId then { x with status := "completed" } else x)) := by
  rw [recordPaymentRoute]
  cases hc : createPaymentTx orderId tableId amount method db with
  | error e =>
    exact ⟨rfl, Or.inl rfl⟩
  | ok pr =>
    obtain ⟨payment, db1⟩ := pr
    obtain ⟨_, hp2, _, _⟩ := createPaymentTx_ok
      (show createPaymentTx orderId tableId amount method db = Except.ok (payment, db1) by rw [hc])
    dsimp only
    by_cases hs : (!isSplitBill) = true
    · rw [if_pos hs]
      constructor
      · rw [updateTableStatus_orderItems, updateOrderStatus_orderItems, hp2]
      · rw [updateTableStatus_orders, updateOrderStatus]
        cases hf : db1.orders.find? (fun o => o.id == orderId) with
        | none =>
          dsimp only
          exact Or.inl (by rw [hp2])
        | some o =>
          dsimp only
          rw [hp2]
          exact Or.inr rfl
    · rw [if_neg hs]
      exact ⟨by rw [hp2], Or.inl (by rw [hp2])⟩

theorem isCents_activeTotal {items : List OrderItem} (oid : Nat)
    (h : ∀ i ∈ items, IsCents i.price) : IsCents (activeTotal items oid) := by
  rw [activeTotal]
  apply isCents_sum
  intro q hq
  rw [List.mem_map] at hq
  obtain ⟨i, hi, hqe⟩ := hq
  rw [← hqe]
  exact (h i (List.mem_of_mem_filter hi)).mul_nat i.quantity

theorem activeTotal_append_right {l1 l2 : List OrderItem} {oid : Nat}
    (h : ∀ i ∈ l2, ¬ i.orderId = oid) : activeTotal (l1 ++ l2) oid = activeTotal l1 oid := by
  rw [activeTotal, activeTotal, List.filter_append]
  rw [show l2.filter (fun i => i.orderId == oid && !(i.status == "cancelled")) = [] from
    List.filter_eq_nil_iff.mpr (fun a ha => by
      rw [beq_eq_false_iff_ne.mpr (h a ha), Bool.false_and]
      exact Bool.false_ne_true)]
  rw [List.append_nil]

theorem activeTotal_append_left {l1 l2 : List OrderItem} {oid : Nat}
    (h : ∀ i ∈ l1, ¬ i.orderId = oid) : activeTotal (l1 ++ l2) oid = activeTotal l2 oid := by
  rw [activeTotal, activeTotal, List.filter_append]
  rw [show l1.filter (fun i => i.orderId == oid && !(i.status == "cancelled")) = [] from
    List.filter_eq_nil_iff.mpr (fun a ha => by
      rw [beq_eq_false_iff_ne.mpr (h a ha), Bool.false_and]
      exact Bool.false_ne_true)]
  rw [List.nil_append]

theorem activeTotal_all_match {items : List OrderItem} {oid : Nat}
    (h : ∀ i ∈ items, i.orderId = oid ∧ ¬ i.status = "cancelled") :
    activeTotal items oid = (items.map (fun i => i.price * (i.quantity : ℚ))).sum := by
  rw [activeTotal]
  rw [List.filter_eq_self.mpr (fun a ha => by
    rw [beq_iff_eq.mpr (h a ha).1, beq_eq_false_iff_ne.mpr (h a ha).2]
    rfl)]

theorem createOrderRoute_orders_items (db : DB) (tableId : Nat) (items : List OrderItemInput)
    (hwf : db.WF) :
    ∃ (newItems : List OrderItem) (o2 : Order),
      (createOrderRoute tableId items db).db.orders = db.orders ++ [o2] ∧
      (createOrderRoute tableId items db).db.orderItems = db.orderItems ++ newItems ∧
      o2.id = db.nextId ∧
      o2.total = toFixed2 ((items.filterMap (requestedAmount db)).sum) ∧
      (newItems.map (fun i => i.price * (i.quantity : ℚ))).sum
        = (items.filterMap (requestedAmount db)).sum ∧
      (∀ i ∈ newItems, i.orderId = db.nextId ∧ i.status = "queued" ∧
        ∃ m ∈ db.menuItems, i.price = m.price) := by
  have hordersLt := hwf.2.2.2.2.2.2.1
  obtain ⟨o0, ho0⟩ : ∃ x : Order,
      x = { id := db.nextId, tableId := tableId, status := "pending", total := 0 } := ⟨_, rfl⟩
  obtain ⟨db1, hdb1⟩ : ∃ x : DB,
      x = { db with orders := db.orders ++ [o0], nextId := db.nextId + 1 } := ⟨_, rfl⟩
  have ho0id : o0.id = db.nextId := by rw [ho0]
  have hmade : createOrder tableId (r"pending") 0 db = (o0, db1) := by
    rw [createOrder, hdb1, ho0]
  have hb1menu : db1.menuItems = db.menuItems := by rw [hdb1]
  have hb1orders : db1.orders = db.orders ++ [o0] := by rw [hdb1]
  have hb1items : db1.orderItems = db.orderItems := by rw [hdb1]
  have hlookup : ∀ k, getMenuItemById k db1 = getMenuItemById k db :=
    fun k => getMenuItemById_eq_of_menu hb1menu k
  have hreq1 : ∀ it ∈ items, requestedAmount db1 it = requestedAmount db it := by
    intro it _
    unfold requestedAmount
    rw [hlookup]
  obtain ⟨newItems, h1, h2, h3, h4, h5, h6, h7, h8, h9, h10, h11⟩ :=
    createOrderLoop_spec o0.id items 0 db1
  obtain ⟨db2, hdb2⟩ : ∃ x : DB,
      x = updateOrderTotal o0.id (toFixed2 (createOrderLoop o0.id items (0, db1)).1)
            (createOrderLoop o0.id items (0, db1)).2 := ⟨_, rfl⟩
  obtain ⟨db3, hdb3⟩ : ∃ x : DB, x = (updateTableStatus tableId (r"occupied") db2).2 := ⟨_, rfl⟩
  have hroute : createOrderRoute tableId items db
      = { status := 201, db := db3,
          events := [Event.order_created (getOrderById o0.id db3)], error := none } := by
    rw [createOrderRoute]
    rw [hmade]
    dsimp only
    rw [← hdb2, ← hdb3]
  have hsum : (createOrderLoop o0.id items (0, db1)).1
      = (items.filterMap (requestedAmount db)).sum := by
    rw [h8, List.filterMap_congr hreq1, zero_add]
  obtain ⟨o2, ho2⟩ : ∃ x : Order,
      x = { o0 with total := toFixed2 (createOrderLoop o0.id items (0, db1)).1 } := ⟨_, rfl⟩
  have horders2 : db2.orders = db.orders ++ [o2] := by
    rw [hdb2, updateOrderTotal_orders, h2, hb1orders, List.map_append]
    have hold : (db.orders.map (fun o => if o.id == o0.id then { o with total := toFixed2 (createOrderLoop o0.id items (0, db1)).1 } else o)) = db.orders := by
      apply map_update_id
      intro x hxmem hxid
      have hlt := hordersLt x hxmem
      rw [ho0id] at hxid
      exact absurd (by simpa using hxid) (Nat.ne_of_lt hlt)
    rw [hold]
    simp only [List.map_cons, List.map_nil]
    rw [if_pos (by simp), ← ho2]
  have hitems3 : db3.orderItems = db.orderItems ++ newItems := by
    rw [hdb3, updateTableStatus_orderItems, hdb2, updateOrderTotal_orderItems, h1, hb1items]
  have horders3 : db3.orders = db.orders ++ [o2] := by
    rw [hdb3, updateTableStatus_orders, horders2]
  refine ⟨newItems, o2, ?_, ?_, ?_, ?_, ?_, ?_⟩
  · rw [hroute]
    exact horders3
  · rw [hroute]
    exact hitems3
  · rw [ho2]
    exact ho0id
  · rw [ho2]
    dsimp only
    rw [hsum]
  · rw [h9, List.filterMap_congr hreq1]
  · intro i hi
    obtain ⟨hio, his, _, m, hm, hp⟩ := h11 i hi
    rw [hlookup] at hm
    exact ⟨by rw [hio, ho0id], his, m, List.mem_of_find?_eq_some hm, hp⟩

theorem createOrderRoute_invariant (db : DB) (tableId : Nat) (items : List OrderItemInput)
    (hwf : db.WF) (hcents : ∀ m ∈ db.menuItems, IsCents m.price)
    (hinv : TotalInvariant db) :
    TotalInvariant (createOrderRoute tableId items db).db := by
  have hordersLt := hwf.2.2.2.2.2.2.1
  have hitemsOrderLt := hwf.2.2.2.2.2.2.2.2.1
  obtain ⟨newItems, o2, horders, hitems, ho2id, ho2total, hnewsum, hnewprops⟩ :=
    createOrderRoute_orders_items db tableId items hwf
  have hScents : IsCents ((items.filterMap (requestedAmount db)).sum) := by
    apply isCents_sum
    intro q hq
    rw [List.mem_filterMap] at hq
    obtain ⟨it, _, hreq⟩ := hq
    rw [requestedAmount, Option.map_eq_some'] at hreq
    obtain ⟨m, hm, hqeq⟩ := hreq
    rw [← hqeq]
    exact (hcents m (List.mem_of_find?_eq_some hm)).mul_nat it.quantity
  intro o hm
  rw [horders] at hm
  rw [hitems]
  rcases List.mem_append.mp hm with hold | hnew
  · have hne : ∀ i ∈ newItems, ¬ i.orderId = o.id := by
      intro i hi
      rw [(hnewprops i hi).1]
      exact fun hx => absurd hx.symm (Nat.ne_of_lt (hordersLt o hold))
    rw [activeTotal_append_right hne]
    exact hinv o hold
  · rw [List.mem_singleton] at hnew
    subst hnew
    have hleft : ∀ i ∈ db.orderItems, ¬ i.orderId = o.id := by
      intro i hi
      rw [ho2id]
      exact Nat.ne_of_lt (hitemsOrderLt i hi)
    rw [activeTotal_append_left hleft]
    rw [activeTotal_all_match (fun i hi => ⟨(hnewprops i hi).1.trans ho2id.symm, by
      rw [(hnewprops i hi).2.1]
      decide⟩)]
    rw [hnewsum, ho2total, toFixed2_cents hScents]

theorem createOrderRoute_totalsKept (db : DB) (tableId : Nat) (items : List OrderItemInput)
    (hwf : db.WF) : TotalsKept db (createOrderRoute tableId items db).db := by
  obtain ⟨newItems, o2, horders, _, _, _, _, _⟩ :=
    createOrderRoute_orders_items db tableId items hwf
  intro o hold
  refine ⟨o, ?_, rfl, rfl⟩
  rw [horders]
  exact List.mem_append_left _ hold

theorem cancelOrderItemRoute_invariant (db : DB) (orderId itemId : Nat)
    (hinv : TotalInvariant db)
    (hcentsItems : ∀ i ∈ db.orderItems, IsCents i.price)
    (hmatch : ∀ i ∈ db.orderItems, i.id = itemId → i.orderId = orderId) :
    TotalInvariant (cancelOrderItemRoute orderId itemId db).db := by
  cases hfind : getOrderItemById itemId db with
  | none =>
    rw [cancelOrderItemRoute, hfind]
    exact hinv
  | some item =>
    rw [cancelOrderItemRoute, hfind]
    dsimp only
    by_cases hguard : (!(["queued", "pending"].contains item.status)) = true
    · rw [if_pos hguard]
      exact hinv
    · rw [if_neg hguard]
      have hfind2 : db.orderItems.find? (fun i => i.id == itemId) = some item := hfind
      have hcan : orderItemStatusEnum.contains (r"cancelled") = true := by decide
      obtain ⟨db1, hdb1⟩ : ∃ x : DB,
          x = { db with orderItems := db.orderItems.map (fun y => if y.id == itemId then { y with status := "cancelled" } else y) } := ⟨_, rfl⟩
      have hupd : updateOrderItemStatus itemId (r"cancelled") db
          = (some { item with status := "cancelled" }, db1) := by
        rw [hdb1]
        exact updateOrderItemStatus_eq_of_found hfind2 hcan
      rw [hupd]
      dsimp only
      have hb1orders : db1.orders = db.orders := by rw [hdb1]
      have hb1items : db1.orderItems = db.orderItems.map
          (fun y => if y.id == itemId then { y with status := "cancelled" } else y) := by rw [hdb1]
      have hb1cents : ∀ i ∈ db1.orderItems, IsCents i.price := by
        intro i hi
        rw [hb1items] at hi
        simp only [List.mem_map] at hi
        obtain ⟨x, hx, hxeq⟩ := hi
        by_cases hxid : (x.id == itemId) = true
        · rw [if_pos hxid] at hxeq
          rw [← hxeq]
          exact hcentsItems x hx
        · rw [if_neg hxid] at hxeq
          rw [← hxeq]
          exact hcentsItems x hx
      have hfacts : ∀ oid2 : Nat, ¬ oid2 = orderId →
          activeTotal db1.orderItems oid2 = activeTotal db.orderItems oid2 := by
        intro oid2 hne
        rw [hb1items]
        apply activeTotal_map_preserve
        intro i hi
        by_cases hid : (i.id == itemId) = true
        · rw [if_pos hid]
          refine ⟨rfl, rfl, rfl, ?_⟩
          intro hio
          have hoi := hmatch i hi (by simpa using hid)
          rw [hoi] at hio
          exact absurd hio.symm hne
        · rw [if_neg hid]
          exact ⟨rfl, rfl, rfl, fun _ => Iff.rfl⟩
      cases hord : getOrderById orderId db1 with
      | none =>
        dsimp only
        intro o hm
        rw [hb1orders] at hm
        have hneq : ¬ o.id = orderId := by
          rw [getOrderById, Option.map_eq_none'] at hord
          have := List.find?_eq_none.mp hord o (by rw [hb1orders]; exact hm)
          simpa using this
        rw [hfacts o.id hneq]
        exact hinv o hm
      | some order =>
        dsimp only
        rw [getOrderById] at hord
        cases hfo : db1.orders.find? (fun x => x.id == orderId) with
        | none =>
          rw [hfo] at hord
          cases hord
        | some o2 =>
          rw [hfo] at hord
          simp only [Option.map_some', Option.some.injEq] at hord
          have ho2id : o2.id = orderId := by simpa using List.find?_some hfo
          rw [← hord]
          dsimp only
          have htotal : ((db1.orderItems.filter (fun i => i.orderId == o2.id)).filter
                (fun i => !(i.status == "cancelled"))).foldl
                (fun sum i => sum + i.price * (i.quantity : ℚ)) 0
              = activeTotal db1.orderItems o2.id := by
            rw [foldl_add_map_sum, zero_add, List.filter_filter, activeTotal]
            congr 2
            apply List.filter_congr
            intro a _
            exact Bool.and_comm _ _
          rw [htotal]
          rw [toFixed2_cents (isCents_activeTotal o2.id hb1cents)]
          intro o hm
          rw [updateOrderTotal_orders] at hm
          simp only [List.mem_map] at hm
          obtain ⟨x, hx, hxeq⟩ := hm
          rw [updateOrderTotal_orderItems]
          by_cases hxid : (x.id == o2.id) = true
          · rw [if_pos hxid] at hxeq
            rw [← hxeq]
            dsimp only
            have : x.id = o2.id := by simpa using hxid
            rw [this]
          · rw [if_neg hxid] at hxeq
            rw [← hxeq]
            have hne : ¬ x.id = orderId := by
              rw [← ho2id]
              simpa using hxid
            rw [hfacts x.id hne]
            rw [hb1orders] at hx
            exact hinv x hx

/-- Store with one confirmed order of total 10 holding a single queued item
priced 10, satisfying the derived-total invariant. -/
def exC1DB : DB :=
  { tables := [{ id := 1, number := 1, status := "occupied" }],
    menuItems := [{ id := 2, name := "Burger", price := 10, available := true }],
    orders := [{ id := 3, tableId := 1, status := "confirmed", total := 10 }],
    orderItems := [{ id := 4, orderId := 3, menuItemId := 2, quantity := 1, notes := none,
                     status := "queued", price := 10 }],
    payments := [],
    billShares := [],
    nextId := 5 }

/-- The single order row of exC1DB. -/
def exC1Order : Order := { id := 3, tableId := 1, status := "confirmed", total := 10 }

/-- The item of exC1DB after being set to cancelled through the status
update endpoint. -/
def exC1CancelledItem : OrderItem :=
  { id := 4, orderId := 3, menuItemId := 2, quantity := 1, notes := none, status := "cancelled", price := 10 }

/-- C1 counterexample: updateOrderItemStatus may set an item to cancelled
without recomputing the order total, so the claimed invariant fails after
that mutating operation: the stored total stays 10 while the sum over
non-cancelled items drops to 0. -/
theorem c1_counterexample :
    TotalInvariant exC1DB ∧
    (updateOrderItemStatusRoute 3 4 (r"cancelled") exC1DB).status = 200 ∧
    ¬ TotalInvariant (updateOrderItemStatusRoute 3 4 (r"cancelled") exC1DB).db := by
  have hdb : (updateOrderItemStatusRoute 3 4 (r"cancelled") exC1DB).db
      = { exC1DB with orderItems := [exC1CancelledItem] } := by
    rfl
  refine ⟨?_, rfl, ?_⟩
  · intro o hm
    rw [show exC1DB.orders = [exC1Order] from rfl, List.mem_singleton] at hm
    subst hm
    show (10 : ℚ) = activeTotal exC1DB.orderItems 3
    rw [activeTotal]
    rw [show exC1DB.orderItems = [{ id := 4, orderId := 3, menuItemId := 2, quantity := 1, notes := none, status := "queued", price := 10 }] from rfl]
    rw [List.filter_cons_of_pos (by decide), List.filter_nil]
    simp only [List.map_cons, List.map_nil, List.sum_cons, List.sum_nil]
    norm_num
  · intro hinv
    have hmem : exC1Order ∈ (updateOrderItemStatusRoute 3 4 (r"cancelled") exC1DB).db.orders := by
      rw [hdb]
      exact List.mem_singleton.mpr rfl
    have h := hinv _ hmem
    rw [hdb] at h
    rw [show ({ exC1DB with orderItems := [exC1CancelledItem] } : DB).orderItems = [exC1CancelledItem] from rfl] at h
    rw [activeTotal] at h
    rw [show exC1Order.id = 3 from rfl] at h
    rw [show List.filter (fun i => i.orderId == 3 && !(i.status == "cancelled")) [exC1CancelledItem] = [] from by decide] at h
    simp only [List.map_nil, List.sum_nil] at h
    exact absurd h (by norm_num [exC1Order])

/-- C1 amended: the derived-total invariant holds after order creation and
after item cancellation, and is preserved by every other operation except
that an item status update preserves it only when the update does not change
whether the item counts as cancelled and item cancellation recomputes the
correct total only when the item belongs to the addressed order; no
operation other than cancelOrderItem ever changes (in particular decreases)
the total of an already-created order. -/
theorem c1_total_invariant_amended :
    (∀ (db : DB) (tableId : Nat) (items : List OrderItemInput), db.WF →
      (∀ m ∈ db.menuItems, IsCents m.price) →
      (TotalInvariant db → TotalInvariant (createOrderRoute tableId items db).db) ∧
      TotalsKept db (createOrderRoute tableId items db).db) ∧
    (∀ (db : DB) (orderId : Nat),
      (TotalInvariant db → TotalInvariant (confirmOrderRoute orderId db).db) ∧
      TotalsKept db (confirmOrderRoute orderId db).db) ∧
    (∀ (db : DB) (orderId itemId : Nat) (status : String),
      (TotalInvariant db →
        (∀ i ∈ db.orderItems, i.id = itemId → (i.status = "cancelled" ↔ status = "cancelled")) →
        TotalInvariant (updateOrderItemStatusRoute orderId itemId status db).db) ∧
      TotalsKept db (updateOrderItemStatusRoute orderId itemId status db).db) ∧
    (∀ (db : DB) (orderId itemId : Nat),
      TotalInvariant db →
      (∀ i ∈ db.orderItems, IsCents i.price) →
      (∀ i ∈ db.orderItems, i.id = itemId → i.orderId = orderId) →
      TotalInvariant (cancelOrderItemRoute orderId itemId db).db) ∧
    (∀ (db : DB) (orderId tableId : Nat) (method : String) (shares : List ShareInput),
      (TotalInvariant db → TotalInvariant (createSplitBillRoute orderId tableId method shares db).db) ∧
      TotalsKept db (createSplitBillRoute orderId tableId method shares db).db) ∧
    (∀ (db : DB) (shareId : Nat),
      (TotalInvariant db → TotalInvariant (markShareAsPaidRoute shareId db).db) ∧
      TotalsKept db (markShareAsPaidRoute shareId db).db) ∧
    (∀ (db : DB) (orderId tableId : Nat) (amount : ℚ) (method : String) (isSplitBill : Bool),
      (TotalInvariant db → TotalInvariant (recordPaymentRoute orderId tableId amount method isSplitBill db).db) ∧
      TotalsKept db (recordPaymentRoute orderId tableId amount method isSplitBill db).db) := by
  refine ⟨?_, ?_, ?_, ?_, ?_, ?_, ?_⟩
  · intro db tableId items hwf hcents
    exact ⟨createOrderRoute_invariant db tableId items hwf hcents,
      createOrderRoute_totalsKept db tableId items hwf⟩
  · intro db orderId
    obtain ⟨hitems, horders⟩ := confirmOrderRoute_db_shape db orderId
    constructor
    · intro hinv
      rcases horders with heq | hmap
      · exact totalInvariant_transport hitems
          (fun o2 hm => ⟨o2, by rw [← heq]; exact hm, rfl, rfl⟩) hinv
      · exact totalInvariant_transport hitems
          (fun o2 hm => exists_pre_of_mem_map_statusSet o2 (by rw [← hmap]; exact hm)) hinv
    · intro o hold
      rcases horders with heq | hmap
      · exact ⟨o, by rw [heq]; exact hold, rfl, rfl⟩
      · obtain ⟨o2, hmem, hprops⟩ := mem_map_statusSet_self o hold
        exact ⟨o2, by rw [hmap]; exact hmem, hprops⟩
  · intro db orderId itemId status
    obtain ⟨horders, hitems⟩ := updateOrderItemStatusRoute_db_shape db orderId itemId status
    constructor
    · intro hinv hiff
      intro o hm
      rw [horders] at hm
      rcases hitems with heq | hmap
      · rw [heq]
        exact hinv o hm
      · rw [hmap]
        rw [activeTotal_map_preserve _ o.id db.orderItems (by
          intro i hi
          by_cases hid : (i.id == itemId) = true
          · rw [if_pos hid]
            exact ⟨rfl, rfl, rfl, fun _ => Iff.symm (hiff i hi (by simpa using hid))⟩
          · rw [if_neg hid]
            exact ⟨rfl, rfl, rfl, fun _ => Iff.rfl⟩)]
        exact hinv o hm
    · intro o hold
      exact ⟨o, by rw [horders]; exact hold, rfl, rfl⟩
  · intro db orderId itemId hinv hcentsItems hmatch
    exact cancelOrderItemRoute_invariant db orderId itemId hinv hcentsItems hmatch
  · intro db orderId tableId method shares
    obtain ⟨horders, hitems⟩ := createSplitBillRoute_db_shape db orderId tableId method shares
    constructor
    · intro hinv
      exact totalInvariant_transport hitems
        (fun o2 hm => ⟨o2, by rw [← horders]; exact hm, rfl, rfl⟩) hinv
    · intro o hold
      exact ⟨o, by rw [horders]; exact hold, rfl, rfl⟩
  · intro db shareId
    obtain ⟨hitems, horders⟩ := markShareAsPaidRoute_db_shape db shareId
    constructor
    · intro hinv
      rcases horders with heq | ⟨k, hmap⟩
      · exact totalInvariant_transport hitems
          (fun o2 hm => ⟨o2, by rw [← heq]; exact hm, rfl, rfl⟩) hinv
      · exact totalInvariant_transport hitems
          (fun o2 hm => exists_pre_of_mem_map_statusSet o2 (by rw [← hmap]; exact hm)) hinv
    · intro o hold
      rcases horders with heq | ⟨k, hmap⟩
      · exact ⟨o, by rw [heq]; exact hold, rfl, rfl⟩
      · obtain ⟨o2, hmem, hprops⟩ := mem_map_statusSet_self o hold
        exact ⟨o2, by rw [hmap]; exact hmem, hprops⟩
  · intro db orderId tableId amount method isSplitBill
    obtain ⟨hitems, horders⟩ := recordPaymentRoute_db_shape db orderId tableId amount method isSplitBill
    constructor
    · intro hinv
      rcases horders with heq | hmap
      · exact totalInvariant_transport hitems
          (fun o2 hm => ⟨o2, by rw [← heq]; exact hm, rfl, rfl⟩) hinv
      · exact totalInvariant_transport hitems
          (fun o2 hm => exists_pre_of_mem_map_statusSet o2 (by rw [← hmap]; exact hm)) hinv
    · intro o hold
      rcases horders with heq | hmap
      · exact ⟨o, by rw [heq]; exact hold, rfl, rfl⟩
      · obtain ⟨o2, hmem, hprops⟩ := mem_map_statusSet_self o hold
        exact ⟨o2, by rw [hmap]; exact hmem, hprops⟩

/-- Store where the single bill share of the payment is already paid, the
order completed and the table free. -/
def exPaidDB : DB :=
  { tables := [{ id := 1, number := 5, status := "free" }],
    menuItems := [],
    orders := [{ id := 2, tableId := 1, status := "completed", total := 30 }],
    orderItems := [],
    payments := [{ id := 3, orderId := 2, tableId := 1, amount := 30, method := "cash" }],
    billShares := [{ id := 4, paymentId := 3, customerName := "Alice", amount := 30, paid := true }],
    nextId := 5 }

theorem c1_witness : TotalInvariant (cancelOrderItemRoute 3 4 exC1DB).db := by
  have hinv : TotalInvariant exC1DB := by
    intro o hm
    rw [show exC1DB.orders = [exC1Order] from rfl, List.mem_singleton] at hm
    subst hm
    show (10 : ℚ) = activeTotal exC1DB.orderItems 3
    rw [activeTotal]
    rw [show exC1DB.orderItems = [{ id := 4, orderId := 3, menuItemId := 2, quantity := 1, notes := none, status := "queued", price := 10 }] from rfl]
    rw [List.filter_cons_of_pos (by decide), List.filter_nil]
    simp only [List.map_cons, List.map_nil, List.sum_cons, List.sum_nil]
    norm_num
  refine c1_total_invariant_amended.2.2.2.1 exC1DB 3 4 hinv ?_ ?_
  · intro i hi
    rw [show exC1DB.orderItems = [{ id := 4, orderId := 3, menuItemId := 2, quantity := 1, notes := none, status := "queued", price := 10 }] from rfl, List.mem_singleton] at hi
    subst hi
    exact ⟨1000, by norm_num⟩
  · intro i hi _
    rw [show exC1DB.orderItems = [{ id := 4, orderId := 3, menuItemId := 2, quantity := 1, notes := none, status := "queued", price := 10 }] from rfl, List.mem_singleton] at hi
    subst hi
    rfl

theorem c2_witness : (createSplitBillRoute 2 1 (r"cash") exShares exSplitDB).status = 201 := by
  have h := (c2_createSplitBill_spec exSplitDB 2 1 (r"cash") exShares).2.2.2.2.2
  refine (h { id := 2, tableId := 1, status := "confirmed", total := 30 }
    (by decide) rfl ?_ (by decide) ?_ (by decide) (by decide)).1
  · intro s hs
    rw [exShares] at hs
    rcases List.mem_cons.mp hs with hEq | hMem
    · subst hEq
      exact ⟨by decide, 15, rfl, by decide⟩
    · rcases List.mem_cons.mp hMem with hEq | hnil
      · subst hEq
        exact ⟨by decide, 15, rfl, by decide⟩
      · cases hnil
  · simp only [inputSum, exShares, List.filterMap_cons, List.filterMap_nil]
    norm_num

theorem c3_witness :
    (markShareAsPaidRoute 4 exPayDB).status = 200 ∧
    (markShareAsPaidRoute 4 exPayDB).events = [Event.split_bill_completed 3 2 1] := by
  have h := c3_markShareAsPaid_spec exPayDB 4
    { id := 4, paymentId := 3, customerName := "Alice", amount := 30, paid := false }
    { id := 3, orderId := 2, tableId := 1, amount := 30, method := "cash" }
    (by decide) (by decide)
  have hc := h.1 (by
    intro s hs _ hne
    rw [show exPayDB.billShares = [{ id := 4, paymentId := 3, customerName := "Alice", amount := 30, paid := false }] from rfl, List.mem_singleton] at hs
    subst hs
    exact absurd rfl hne)
  exact ⟨hc.1, hc.2.2.2.2⟩

theorem c5_witness : (cancelOrderItemRoute 3 4 exC1DB).status = 200 := by
  have h := c5_cancelOrderItem_guard exC1DB 3 4
    { id := 4, orderId := 3, menuItemId := 2, quantity := 1, notes := none, status := "queued", price := 10 }
    (by decide)
  exact (h.2.1 (Or.inl rfl)).1

theorem c6_witness :
    (createOrderRoute 1 [{ menuItemId := 2, quantity := 2, notes := none }] exC1DB).status = 201 := by
  have h := c6_createOrder_spec exC1DB 1 [{ menuItemId := 2, quantity := 2, notes := none }]
    (by exact ⟨by decide, by decide, by decide, by decide, by decide, by decide, by decide,
      by decide, by decide, by decide, by decide⟩) (by
      intro m hm
      rw [show exC1DB.menuItems = [{ id := 2, name := "Burger", price := 10, available := true }] from rfl, List.mem_singleton] at hm
      subst hm
      exact ⟨1000, by norm_num⟩)
  exact h.1

theorem c7_witness :
    (createSplitBillRoute 2 1 (r"cash") exShares exSplitDB).events = [] ∧
    (∃ x, (createOrderRoute 1 [] exSplitDB).events = [Event.order_created x]) := by
  have h := c7_broadcast_amended
  exact ⟨h.2.2.2.2.1 exSplitDB 2 1 (r"cash") exShares, (h.1 exSplitDB 1 []).2⟩

theorem c9_witness : (createOrderRoute 1 [] exC1DB).status = 201 := by
  have h := c9_createOrder_empty exC1DB 1 []
    (by exact ⟨by decide, by decide, by decide, by decide, by decide, by decide, by decide,
      by decide, by decide, by decide, by decide⟩)
    (by intro it hit; cases hit)
  exact h.1

theorem c10_witness :
    (markShareAsPaidRoute 4 exPaidDB).status = 200 ∧
    (markShareAsPaidRoute 4 exPaidDB).db = exPaidDB := by
  have h := c10_markShareAsPaid_idempotent exPaidDB 4
    { id := 4, paymentId := 3, customerName := "Alice", amount := 30, paid := true }
    { id := 3, orderId := 2, tableId := 1, amount := 30, method := "cash" }
    (by exact ⟨by decide, by decide, by decide, by decide, by decide, by decide, by decide,
      by decide, by decide, by decide, by decide⟩)
    (by decide)
    (by
      intro s hs _
      rw [show exPaidDB.billShares = [{ id := 4, paymentId := 3, customerName := "Alice", amount := 30, paid := true }] from rfl, List.mem_singleton] at hs
      subst hs
      rfl)
    (by decide)
    (by
      intro o ho hid
      rw [show exPaidDB.orders = [{ id := 2, tableId := 1, status := "completed", total := 30 }] from rfl, List.mem_singleton] at ho
      subst ho
      rfl)
    (by
      intro t ht hid
      rw [show exPaidDB.tables = [{ id := 1, number := 5, status := "free" }] from rfl, List.mem_singleton] at ht
      subst ht
      rfl)
  exact ⟨h.1, h.2.1⟩

end Restaurant
